import Mathlib

/-!
Verification of the sins2-mapmaker scenario editor core: the scenario graph
model (nodes, lanes), the warning engine, and the export pipeline.  All
definitions below are shallow embeddings of the TypeScript source
(`src/App.tsx`, `src/data/bodyTypes.ts`); JavaScript `Map`s are modelled as
association lists with insertion-order semantics, `undefined`/optional fields
as `Option`, and floating-point loot chances as rationals.
-/

namespace Sins2

/-- Body-type categories from `bodyTypes.ts` (`BodyTypeCategory`). -/
inductive BodyCat
  | star | planet | moon | asteroid | special
deriving DecidableEq, Repr

/-- NPC faction types (`NodeOwnership.npc_filling_type`). -/
inductive NpcType
  | militia | guardian | enemy_faction | friendly_faction
deriving DecidableEq, Repr

/-- Lane types (`PhaseLane.type`); the field is optional in the source. -/
inductive LaneType
  | normal | star | wormhole
deriving DecidableEq, Repr

/-- Ownership record of a node (`NodeOwnership`); every field is optional. -/
structure NodeOwnership where
  player_index : Option Int := none
  npc_filling_type : Option NpcType := none
  npc_filling_name : Option String := none
  are_secondary_fixtures_owned : Option Bool := none
deriving DecidableEq, Repr

/-- A node of the scenario graph (`NodeItem`).  Positions are world
coordinates (display-only for the verified properties), `chance_of_loot` a
rational in place of the source's float, `loot_level` the ad hoc field the
source reads through a cast. -/
structure NodeItem where
  id : Nat
  filling_name : String
  posX : Int := 0
  posY : Int := 0
  ownership : Option NodeOwnership := none
  parent_star_id : Option Nat := none
  rotation : Option Int := none
  chance_of_loot : Option Rat := none
  loot_level : Option Int := none
  has_artifact : Bool := false
  artifact_name : Option String := none
  initial_category : BodyCat := .planet
deriving DecidableEq, Repr

/-- A travel lane (`PhaseLane`); `type` is optional in the source. -/
structure PhaseLane where
  id : Nat
  node_a : Nat
  node_b : Nat
  type : Option LaneType := none
deriving DecidableEq, Repr

/-- Category table of `BODY_TYPES` in `bodyTypes.ts`: the category of each
curated editor body-type id, `none` for unknown ids (JS `Map.get`
returning `undefined`). -/
def categoryOf : String → Option BodyCat
  | "star" => some .star
  | "star_yellow" => some .star
  | "star_orange" => some .star
  | "star_red_giant" => some .star
  | "star_white_dwarf" => some .star
  | "star_neutron" => some .star
  | "star_blue_giant" => some .star
  | "star_binary" => some .star
  | "star_black_hole" => some .star
  | "planet_ice_moon" => some .moon
  | "planet_volcanic_moon" => some .moon
  | "planet_barren" => some .planet
  | "planet_volcanic" => some .planet
  | "planet_ice" => some .planet
  | "planet_swamp" => some .planet
  | "planet_terran" => some .planet
  | "planet_desert" => some .planet
  | "planet_ferrous" => some .planet
  | "planet_crystalline" => some .planet
  | "planet_oceanic" => some .planet
  | "planet_geomagnetic" => some .planet
  | "planet_greenhouse" => some .planet
  | "planet_city" => some .planet
  | "planet_gas_giant" => some .planet
  | "planet_ship_graveyard" => some .planet
  | "planet_pirate_base" => some .planet
  | "planet_brown_dwarf" => some .planet
  | "planet_irradiated" => some .planet
  | "planet_shattered" => some .planet
  | "planet_uncolonizable" => some .planet
  | "moon_small" => some .moon
  | "moon_large" => some .moon
  | "moon_weighted" => some .moon
  | "asteroid_field" => some .asteroid
  | "asteroid_belt" => some .asteroid
  | "dead_asteroid" => some .asteroid
  | "asteroid_point_line_cluster" => some .asteroid
  | "asteroid_hive" => some .asteroid
  | "wormhole" => some .special
  | "black_hole" => some .special
  | "special_radiation_storm" => some .special
  | "special_antimatter_fountain" => some .special
  | _ => none

/-- `bodyTypeById.has(id)`: whether the id is in the curated registry. -/
def inRegistry (id : String) : Bool := (categoryOf id).isSome

/-- `EDITOR_TO_GAME_FILLING` of `bodyTypes.ts`: the curated editor-id to
game-filling translation table. -/
def editorToGameFilling : String → Option String
  | "star" => some "random_star"
  | "star_yellow" => some "random_yellow_star"
  | "star_orange" => some "random_orange_star"
  | "star_red_giant" => some "random_red_star"
  | "star_white_dwarf" => some "random_white_star"
  | "star_neutron" => some "random_neutron_star"
  | "star_blue_giant" => some "random_blue_star"
  | "star_binary" => some "random_binary_star"
  | "star_black_hole" => some "random_black_hole_star"
  | "planet_ice_moon" => some "random_ice_moon_planet"
  | "planet_volcanic_moon" => some "random_volcanic_moon_planet"
  | "planet_barren" => some "random_barren_planet"
  | "planet_volcanic" => some "random_volcanic_planet"
  | "planet_ice" => some "random_ice_planet"
  | "planet_swamp" => some "random_swamp_planet"
  | "planet_terran" => some "random_terran_planet"
  | "planet_desert" => some "random_desert_planet"
  | "planet_ferrous" => some "random_ferrous_planet"
  | "planet_crystalline" => some "random_crystalline_planet"
  | "planet_oceanic" => some "random_oceanic_planet"
  | "planet_geomagnetic" => some "random_magnetic_planet"
  | "planet_greenhouse" => some "random_greenhouse_planet"
  | "planet_city" => some "random_city_planet"
  | "planet_gas_giant" => some "random_gas_giant_planet"
  | "planet_ship_graveyard" => some "random_ship_graveyard_planet"
  | "planet_pirate_base" => some "player_home_planet"
  | "planet_brown_dwarf" => some "random_brown_dwarf_planet"
  | "planet_irradiated" => some "random_irradiated_planet"
  | "planet_shattered" => some "random_shattered_planet"
  | "planet_uncolonizable" => some "random_uncolonizable_planet"
  | "asteroid_field" => some "random_asteroid"
  | "asteroid_belt" => some "random_asteroid"
  | "dead_asteroid" => some "random_dead_asteroid"
  | "asteroid_point_line_cluster" => some "random_asteroid_point_line_cluster"
  | "asteroid_hive" => some "random_hive_asteroid"
  | "moon_small" => some "random_moon_planet"
  | "moon_large" => some "random_moon_planet"
  | "moon_weighted" => some "random_moon_planet_weighted"
  | "wormhole" => some "wormhole_fixture"
  | "black_hole" => some "random_black_hole_fixture"
  | "special_radiation_storm" => some "random_radiation_storm_fixture"
  | "special_antimatter_fountain" => some "random_antimatter_fountain_fixture"
  | _ => none

/-- `toGameFillingName`: translate an editor id, defaulting to the raw id. -/
def toGameFillingName (editorId : String) : String :=
  (editorToGameFilling editorId).getD editorId

/-- `PLAYER_OWNABLE_TYPES` of `App.tsx`. -/
def PLAYER_OWNABLE_TYPES : List String :=
  ["planet_terran", "planet_desert", "planet_ferrous", "planet_city"]

/-- `ARTIFACT_OPTIONS` of `App.tsx`: the closed artifact enumeration. -/
def ARTIFACT_OPTIONS : List String :=
  ["culture_bonus_planet_artifact",
   "matter_compressor_planet_artifact",
   "exoforce_matrix_ship_artifact",
   "kinetic_intensifier_ship_artifact",
   "power_core_relic_ship_artifact",
   "relativistic_factories_planet_artifact",
   "resilient_metaloids_ship_artifact",
   "research_archive_planet_artifact",
   "weapon_symbiote_ship_artifact",
   "tachyon_comms_relay_planet_artifact",
   "mass_negation_core_ship_artifact"]

/-- The category of the body type a node references
(`bodyTypeById.get(n.filling_name)?.category`). -/
def nodeCategory (n : NodeItem) : Option BodyCat := categoryOf n.filling_name

/-- Whether a node's body type has category star. -/
def isStarNode (n : NodeItem) : Bool := nodeCategory n = some .star

/-- `typeof n.ownership?.player_index === 'number' && player_index >= 0`. -/
def playerIndexOf (n : NodeItem) : Option Int :=
  n.ownership.bind (fun o => o.player_index)

/-- Player-owned in the sense the warning engine uses: the ownership record
carries a numeric `player_index` that is nonnegative. -/
def isPlayerOwnedNode (n : NodeItem) : Bool :=
  match playerIndexOf n with
  | some i => 0 ≤ i
  | none => false

/-- Truthy `n.ownership?.npc_filling_name` (JS: a nonempty string). -/
def npcNameTruthy (n : NodeItem) : Bool :=
  match n.ownership.bind (fun o => o.npc_filling_name) with
  | some s => s ≠ ""
  | none => false

section AssocList

variable {κ : Type} {α : Type} [DecidableEq κ]

/-- JS `Map.get`: lookup in an insertion-ordered association list. -/
def alistGet (m : List (κ × α)) (k : κ) : Option α :=
  (m.find? (fun p => p.1 = k)).map (fun p => p.2)

/-- JS `Map.get(k) ?? d`. -/
def alistGetD (m : List (κ × α)) (k : κ) (d : α) : α :=
  (alistGet m k).getD d

/-- JS `Map.set`: replace in place if the key exists (keeping its original
insertion position), else append. -/
def alistSet (m : List (κ × α)) (k : κ) (v : α) : List (κ × α) :=
  if (m.find? (fun p => p.1 = k)).isSome then
    m.map (fun p => if p.1 = k then (k, v) else p)
  else
    m ++ [(k, v)]

/-- JS `Map.has`. -/
def alistHas (m : List (κ × α)) (k : κ) : Bool :=
  (m.find? (fun p => p.1 = k)).isSome

end AssocList

/-- `nodes.find(n => n.id === i)`. -/
def findNode (nodes : List NodeItem) (i : Nat) : Option NodeItem :=
  nodes.find? (fun n => n.id = i)

/-! ### The warning engine

Shallow embedding of the `useEffect` in `App.tsx` that recomputes the
`warnings` list after every mutation (lines 296-461).  Each block of the
effect becomes one definition; `computeWarnings` concatenates them in
source order. -/

/-- Per-lane checks: self loops, missing endpoints, star-typed and
wormhole-typed lane constraints (first block of the warnings effect). -/
def laneChecks (nodes : List NodeItem) (l : PhaseLane) : List String :=
  (if l.node_a = l.node_b then
    ["Lane " ++ toString l.id ++ " connects a node to itself"] else [])
  ++ (match findNode nodes l.node_a, findNode nodes l.node_b with
      | some a, some b =>
        (if l.type = some LaneType.star ∧ ¬(isStarNode a ∧ isStarNode b) then
          ["Lane " ++ toString l.id ++ " type star must connect two stars"] else [])
        ++ (if l.type = some LaneType.wormhole ∧
              ¬(toGameFillingName a.filling_name = "wormhole_fixture" ∧
                toGameFillingName b.filling_name = "wormhole_fixture") then
          ["Lane " ++ toString l.id ++ " type wormhole must connect two wormhole fixtures"] else [])
      | _, _ => ["Lane " ++ toString l.id ++ " references a missing node"])

/-- The unordered endpoint key of a lane (the JS template string). -/
def dupKey (l : PhaseLane) : String :=
  if l.node_a < l.node_b then toString l.node_a ++ "-" ++ toString l.node_b
  else toString l.node_b ++ "-" ++ toString l.node_a

/-- Duplicate-lane detection with a seen-key set (second block). -/
def dupLaneWarnings (lanes : List PhaseLane) : List String :=
  (lanes.foldl (fun (acc : List String × List String) l =>
     let key := dupKey l
     if key ∈ acc.1 then (acc.1, acc.2 ++ ["Duplicate lane detected between " ++ key])
     else (acc.1 ++ [key], acc.2)) ([], [])).2

/-- Player-index range validation (third block). -/
def ownershipRangeWarnings (nodes : List NodeItem) (players : Int) : List String :=
  nodes.foldr (fun n acc =>
    (match playerIndexOf n with
     | some p =>
        if p < 0 ∨ players ≤ p then
          ["Node " ++ toString n.id ++ " player_index out of range 0.." ++
            toString (max 0 (players - 1))]
        else []
     | none => []) ++ acc) []

/-- Player-ownable whitelist and one-home-per-player checks (fourth block):
the `forEach` accumulates whitelist violations and the per-player owned-node
map (a JS `Map`, insertion ordered), then multi-ownership messages follow. -/
def ownableMultiWarnings (nodes : List NodeItem) : List String :=
  let step := nodes.foldl (fun (acc : List String × List (Int × List Nat)) n =>
    if isStarNode n then acc
    else
      match playerIndexOf n with
      | some p =>
        if 0 ≤ p then
          let w1 := if ¬ PLAYER_OWNABLE_TYPES.contains n.filling_name then
              acc.1 ++ ["Node " ++ toString n.id ++ " (" ++ n.filling_name ++
                ") cannot be player-owned. Allowed: terran, desert, ferrous, city"]
            else acc.1
          let m := acc.2
          let m' := match alistGet m p with
            | some ids => alistSet m p (ids ++ [n.id])
            | none => alistSet m p [n.id]
          (w1, m')
        else acc
      | none => acc) ([], [])
  step.1 ++ step.2.foldr (fun pr acc =>
    (if 1 < pr.2.length then
      ["Player " ++ toString pr.1 ++ " owns multiple planets: " ++
        String.intercalate ", " (pr.2.map toString) ++ " (only one allowed)"]
     else []) ++ acc) []

/-- Ids of the star-category nodes. -/
def starIdsOf (nodes : List NodeItem) : List Nat :=
  (nodes.filter isStarNode).map (fun n => n.id)

/-- The non-star nodes. -/
def nonStarsOf (nodes : List NodeItem) : List NodeItem :=
  nodes.filter (fun n => ¬ isStarNode n)

/-- Star/body count limits and parent-star referential checks (blocks five
and six of the effect). -/
def starBodyWarnings (nodes : List NodeItem) : List String :=
  let starIds := starIdsOf nodes
  let nonStars := nonStarsOf nodes
  (if 15 < starIds.length then
    ["Too many stars: " ++ toString starIds.length ++ " (max 15)"] else [])
  ++ (if 0 < nonStars.length ∧ starIds.length = 0 then
    ["Bodies exist but there are no stars. Add a star and assign parents."] else [])
  ++ starIds.foldr (fun sid acc =>
      (let count := (nonStars.filter (fun p => p.parent_star_id = some sid)).length
       if 100 < count then
        ["Star " ++ toString sid ++ " has " ++ toString count ++ " bodies (max 100)"]
       else []) ++ acc) []
  ++ nonStars.foldr (fun n acc =>
      (match n.parent_star_id with
       | none => ["Body node " ++ toString n.id ++ " has no parent_star_id"]
       | some p =>
          if ¬ starIds.contains p then
            ["Body node " ++ toString n.id ++ " parent_star_id " ++ toString p ++
              " does not reference an existing star"]
          else []) ++ acc) []

/-- `addEdge` of the reachability block: insert an undirected edge into the
adjacency map, skipping pairs whose endpoints do not both exist. -/
def addEdge (adj : List (Nat × List Nat)) (nodeIds : List Nat) (a b : Nat) :
    List (Nat × List Nat) :=
  if nodeIds.contains a ∧ nodeIds.contains b then
    let adj1 := if alistHas adj a then adj else alistSet adj a []
    let adj2 := if alistHas adj1 b then adj1 else alistSet adj1 b []
    let adj3 := alistSet adj2 a (alistGetD adj2 a [] ++ [b])
    alistSet adj3 b (alistGetD adj3 b [] ++ [a])
  else adj

/-- Undirected adjacency map built from lanes only (`for (const l of lanes)
addEdge(l.node_a, l.node_b)`). -/
def buildAdj (nodes : List NodeItem) (lanes : List PhaseLane) : List (Nat × List Nat) :=
  let nodeIds := nodes.map (fun n => n.id)
  lanes.foldl (fun adj l => addEdge adj nodeIds l.node_a l.node_b) []

/-- Total length of all adjacency lists (used to bound the BFS fuel). -/
def totalAdjLen (adj : List (Nat × List Nat)) : Nat :=
  (adj.map (fun p => p.2.length)).sum

/-- One `while (queue.length > 0)` BFS loop of the reachability block,
made structural with explicit fuel (the fuel provably never runs out, see
the lemmas below). -/
def bfsAux (adj : List (Nat × List Nat)) : Nat → List Nat → List Nat → List Nat
  | 0, _, visited => visited
  | _ + 1, [], visited => visited
  | fuel + 1, cur :: queue, visited =>
    let step := (alistGetD adj cur []).foldl
      (fun (p : List Nat × List Nat) nb =>
        if nb ∈ p.1 then p else (p.1 ++ [nb], p.2 ++ [nb]))
      (visited, queue)
    bfsAux adj fuel step.2 step.1

/-- The visited set of the BFS from `start` over `adj`. -/
def bfsReach (adj : List (Nat × List Nat)) (start : Nat) : List Nat :=
  bfsAux adj (totalAdjLen adj + 2) [start] [start]

/-- The reachability warning message for a node and its declared parent. -/
def reachMsg (n : NodeItem) (p : Nat) : String :=
  "Body node " ++ toString n.id ++ " is not reachable from its parent star " ++ toString p

/-- Reachability block: only runs when at least one lane and one star exist;
every non-star node with a (JS-truthy) declared parent must be in the BFS
visited set of that parent (a missing entry — parent not a star — also
warns). -/
def reachCheck (starIds : List Nat) (adj : List (Nat × List Nat)) (n : NodeItem) :
    List String :=
  match n.parent_star_id with
  | none => []
  | some p =>
    if p = 0 then []
    else if starIds.contains p then
      (if (bfsReach adj p).contains n.id then [] else [reachMsg n p])
    else [reachMsg n p]

def reachabilityWarnings (nodes : List NodeItem) (lanes : List PhaseLane) : List String :=
  let starIds := starIdsOf nodes
  if 0 < lanes.length ∧ 0 < starIds.length then
    let adj := buildAdj nodes lanes
    (nonStarsOf nodes).foldr (fun n acc => reachCheck starIds adj n ++ acc) []
  else []

/-- Per-node loot-field checks (loot block of the effect, lines 426-445). -/
def lootChecks (n : NodeItem) : List String :=
  (if n.chance_of_loot = none then
    ["Node " ++ toString n.id ++ " requires Chance of Loot"] else [])
  ++ (if n.chance_of_loot.isSome ∧ n.loot_level = none then
    ["Node " ++ toString n.id ++ " requires Loot Level"] else [])
  ++ (if isPlayerOwnedNode n then
        (if n.chance_of_loot.getD 0 ≠ 0 then
          ["Node " ++ toString n.id ++ " is player-owned and must have Chance of Loot = 0%"] else [])
        ++ (if n.loot_level ≠ some 0 then
          ["Node " ++ toString n.id ++ " is player-owned and must have Loot Level = 0"] else [])
        ++ (if n.has_artifact then
          ["Node " ++ toString n.id ++ " is player-owned and cannot have an artifact"] else [])
      else [])

/-- Category eligibility for artifacts (planet, moon, asteroid, or the
pirate-base special case). -/
def allowedArtifactCategory (n : NodeItem) : Bool :=
  nodeCategory n = some BodyCat.planet || nodeCategory n = some BodyCat.moon
  || nodeCategory n = some BodyCat.asteroid || n.filling_name = "planet_pirate_base"

/-- JS `!n.artifact_name || !ARTIFACT_OPTIONS.includes(n.artifact_name)`. -/
def artifactNameInvalid (a : Option String) : Bool :=
  match a with
  | none => true
  | some s => s = "" || ¬ ARTIFACT_OPTIONS.contains s

/-- Per-node artifact-validity checks (lines 447-457 of the effect). -/
def artifactChecks (n : NodeItem) : List String :=
  if n.has_artifact then
    (if ¬ allowedArtifactCategory n then
      ["Node " ++ toString n.id ++ " type does not allow artifacts"] else [])
    ++ (if artifactNameInvalid n.artifact_name then
      ["Node " ++ toString n.id ++ " has_artifact=true requires a valid Artifact Name"] else [])
  else []

/-- The loot and artifact loop over all nodes. -/
def lootArtifactWarnings (nodes : List NodeItem) : List String :=
  nodes.foldr (fun n acc => lootChecks n ++ artifactChecks n ++ acc) []

/-- The full warning list: all blocks of the effect, in source order. -/
def computeWarnings (nodes : List NodeItem) (lanes : List PhaseLane)
    (players : Int) : List String :=
  lanes.foldr (fun l acc => laneChecks nodes l ++ acc) []
  ++ dupLaneWarnings lanes
  ++ ownershipRangeWarnings nodes players
  ++ ownableMultiWarnings nodes
  ++ (if players < 2 then ["Players must be at least 2"] else [])
  ++ starBodyWarnings nodes
  ++ reachabilityWarnings nodes lanes
  ++ lootArtifactWarnings nodes

/-! ### Name sanitization (`sanitizeName`) -/

/-- The whitespace class of the JS regex `\s` restricted to ASCII. -/
def isJsSpace (c : Char) : Bool :=
  c = ' ' || c = '\t' || c = '\n' || c = '\r' || c = '\x0b' || c = '\x0c'

/-- A character kept by the regex `[A-Za-z0-9_-]`. -/
def isNameAllowed (c : Char) : Bool :=
  ('A' ≤ c && c ≤ 'Z') || ('a' ≤ c && c ≤ 'z') || ('0' ≤ c && c ≤ '9')
  || c = '_' || c = '-'

/-- JS `String.trim` on a character list. -/
def jsTrim (l : List Char) : List Char :=
  (((l.dropWhile isJsSpace).reverse).dropWhile isJsSpace).reverse

/-- JS `String.trim`. -/
def jsTrimStr (s : String) : String := String.mk (jsTrim s.data)

/-- JS `!s || s.trim().length === 0`. -/
def strBlank (s : String) : Bool := (jsTrim s.data).isEmpty

/-- The regex replacement `replace(/\s+/g, '_')` as a one-pass automaton:
the flag records whether the previous character was whitespace, so the
first character of each whitespace run emits `'_'` and the rest of the run
is dropped. -/
def collapseAux : Bool → List Char → List Char
  | _, [] => []
  | prevWs, c :: rest =>
    if isJsSpace c then
      if prevWs then collapseAux true rest
      else '_' :: collapseAux true rest
    else c :: collapseAux false rest

/-- `sanitizeName` of `App.tsx`: trim, replace whitespace runs with `'_'`,
strip characters outside `[A-Za-z0-9_-]`, default to `"Scenario"`. -/
def sanitizeName (name : String) : String :=
  let s := collapseAux false (jsTrim name.data)
  let cleaned := s.filter isNameAllowed
  if cleaned.isEmpty then "Scenario" else String.mk cleaned

/-- Modelled from the spec (§4.4): the maximal whitespace-separated words of
a character list, used to state sanitization as "collapse whitespace to
underscores" independently of the source's regex pipeline. -/
def wordsAux : List Char → List (List Char)
  | [] => []
  | c :: rest =>
    let ws := wordsAux rest
    if isJsSpace c then ws
    else
      match rest with
      | [] => [[c]]
      | d :: _ =>
        if isJsSpace d then [c] :: ws
        else
          match ws with
          | [] => [[c]]
          | w :: ws' => (c :: w) :: ws'

/-- Modelled from the spec (§4.4): join words with single underscores. -/
def joinUnderscore : List (List Char) → List Char
  | [] => []
  | [w] => w
  | w :: ws => w ++ '_' :: joinUnderscore ws

/-- Modelled from the spec (§4.4): trim, collapse whitespace runs to single
underscores (stated as joining the whitespace-separated words), strip
disallowed characters, default to the fixed placeholder. -/
def specSanitizeName (name : String) : String :=
  let joined := joinUnderscore (wordsAux (jsTrim name.data))
  let cleaned := joined.filter isNameAllowed
  if cleaned.isEmpty then "Scenario" else String.mk cleaned

/-! ### The export transformer (`buildScenarioJSON` and companions) -/

/-- An exported node (the object literal built by `toGameNode`): optional
JSON fields are `Option`s, `has_artifact` is emitted only when true (a
`false` here models the absent field). -/
structure GameNode where
  id : Nat
  filling_name : String
  posX : Int
  posY : Int
  rotation : Option Int
  chance_of_loot : Option Rat
  loot_level : Option Int
  has_artifact : Bool
  artifact_name : Option String
  ownership : Option NodeOwnership
deriving DecidableEq, Repr

/-- A root (star) entry of `root_nodes` with its nested `child_nodes`. -/
structure RootNode where
  node : GameNode
  child_nodes : List GameNode
deriving DecidableEq, Repr

/-- An exported `phase_lanes` entry; `type` is present only for wormholes. -/
structure ExportLane where
  id : Nat
  node_a : Nat
  node_b : Nat
  type : Option String
deriving DecidableEq, Repr

/-- The `galaxy_chart.json` object. -/
structure GalaxyChart where
  version : Nat
  skybox : String
  root_nodes : List RootNode
  phase_lanes : List ExportLane
deriving DecidableEq, Repr

/-- The stars of the node collection (category star). -/
def starsOf (nodes : List NodeItem) : List NodeItem := nodes.filter isStarNode

/-- `playerHomePlanetByIndex`: the first-encountered non-star node owned by
each nonnegative player index (argument is the non-star list). -/
def buildHomeMap (nonStars : List NodeItem) : List (Int × Nat) :=
  nonStars.foldl (fun m n =>
    match playerIndexOf n with
    | some idx => if 0 ≤ idx ∧ ¬ alistHas m idx then alistSet m idx n.id else m
    | none => m) []

/-- The `computedFilling` closure of `toGameNode`: home planets and nodes
with a truthy NPC faction name export the fixed player-home identifier,
everything else goes through the static translation table. -/
def computedFilling (homeMap : List (Int × Nat)) (n : NodeItem) : String :=
  if (match playerIndexOf n with
      | some idx => alistGet homeMap idx == some n.id
      | none => (false : Bool)) then "player_home_planet"
  else if npcNameTruthy n then "player_home_planet"
  else toGameFillingName n.filling_name

/-- The `exportOwnership` closure: the cleaned ownership record (our model
carries only the recognized fields, so cleaning a present record is the
identity), with the implicit pirate default for unowned pirate bases. -/
def exportOwnership (n : NodeItem) : Option NodeOwnership :=
  match n.ownership with
  | some o => some o
  | none =>
    if n.filling_name = "planet_pirate_base" then
      some { npc_filling_name := some "pirate" }
    else none

/-- `toGameNode`: one exported node. -/
def toGameNode (homeMap : List (Int × Nat)) (n : NodeItem) : GameNode :=
  { id := n.id
    filling_name := computedFilling homeMap n
    posX := n.posX
    posY := n.posY
    rotation := n.rotation
    chance_of_loot := n.chance_of_loot
    loot_level := n.loot_level
    has_artifact := n.has_artifact
    artifact_name := if n.has_artifact then n.artifact_name else none
    ownership := exportOwnership n }

/-- `childrenByStar`: group the non-stars under their parent star, dropping
bodies whose parent id has no entry (absent or not a star id). -/
def childrenByStar (stars nonStars : List NodeItem) : List (Nat × List NodeItem) :=
  let init := stars.foldl (fun m s => alistSet m s.id []) []
  nonStars.foldl (fun m b =>
    match b.parent_star_id with
    | some sid =>
      if alistHas m sid then alistSet m sid (alistGetD m sid [] ++ [b]) else m
    | none => m) init

/-- `buildScenarioJSON`: the hierarchical export structure. -/
def buildScenarioJSON (nodes : List NodeItem) (lanes : List PhaseLane)
    (skybox : String) : GalaxyChart :=
  let stars := starsOf nodes
  let nonStars := nonStarsOf nodes
  let cbs := childrenByStar stars nonStars
  let homeMap := buildHomeMap nonStars
  { version := 1
    skybox := skybox
    root_nodes := stars.map (fun s =>
      { node := toGameNode homeMap s
        child_nodes := (alistGetD cbs s.id []).map (toGameNode homeMap) })
    phase_lanes := lanes.map (fun l =>
      { id := l.id
        node_a := l.node_a
        node_b := l.node_b
        type := if l.type = some LaneType.wormhole then some "wormhole" else none }) }

/-! ### The archive packager (`exportZip` and companions) -/

/-- The `scenario_info.json` object (`buildScenarioInfoJSON`);
`has_npcs` is emitted only when true. -/
structure ScenarioInfo where
  version : Nat
  name : String
  description : String
  player_count : Int
  team_count : Int
  can_gravity_wells_move : Bool
  are_player_slots_randomized : Bool
  planet_counts : Nat × Nat
  star_counts : Nat × Nat
  has_wormholes : Bool
  has_npcs : Bool
  resources : String
  map_type : String
deriving DecidableEq, Repr

/-- `buildScenarioInfoJSON`. -/
def buildScenarioInfoJSON (nodes : List NodeItem) (lanes : List PhaseLane)
    (players : Int) (teamCount : Int) (scenarioKey : String) : ScenarioInfo :=
  let hasWormholes :=
    nodes.any (fun n => toGameFillingName n.filling_name = "wormhole_fixture")
    || lanes.any (fun l => l.type = some LaneType.wormhole)
  let nonStars := nonStarsOf nodes
  let planetCount := nonStars.length
  let starCount := nodes.length - nonStars.length
  let hasNpcs := nodes.any npcNameTruthy
  { version := 1
    name := ":" ++ scenarioKey
    description := ":" ++ scenarioKey ++ "_desc"
    player_count := max 2 (min 10 (if players = 0 then 2 else players))
    team_count := max 0 (min 10 teamCount)
    can_gravity_wells_move := false
    are_player_slots_randomized := false
    planet_counts := (planetCount, planetCount)
    star_counts := (starCount, starCount)
    has_wormholes := hasWormholes
    has_npcs := hasNpcs
    resources := "scenario_options_view_resources_high"
    map_type := "scenario_options_view_map_type_custom" }

/-- The `scenario.uniforms` object (constant apart from the scenario name). -/
structure ScenarioUniforms where
  dlc_multiplayer_scenarios : List String
  dlc_scenarios : List String
  fake_server_scenarios : List String
  scenarios : List String
  version : Nat
deriving DecidableEq, Repr

/-- `buildScenarioUniformsObject`. -/
def buildScenarioUniformsObject (scenarioName : String) : ScenarioUniforms :=
  { dlc_multiplayer_scenarios := []
    dlc_scenarios := []
    fake_server_scenarios := []
    scenarios := [scenarioName]
    version := 1 }

/-- The `.mod_meta_data` object (`buildModMetaData`), structured rather than
serialized: `author` is present only when nonblank. -/
structure ModMetaData where
  compatibility_version : Nat
  display_version : String
  display_name : String
  short_description : String
  author : Option String
  large_logo : String
  small_logo : String
deriving DecidableEq, Repr

/-- `buildModMetaData`. -/
def buildModMetaData (scenarioName : String) (compatVersion : Nat)
    (displayName displayVersion author shortDescription logoFileName : String) :
    ModMetaData :=
  { compatibility_version := compatVersion
    display_version := displayVersion
    display_name := displayName
    short_description :=
      if ¬ strBlank shortDescription then shortDescription
      else scenarioName ++ " created with www.sins2-mapmaker.com"
    author := if ¬ strBlank author then some author else none
    large_logo := logoFileName
    small_logo := logoFileName }

/-- The nested `.scenario` archive contents (the snapshot image is
abstracted to a presence marker). -/
structure ScenarioArchive where
  scenario_info : ScenarioInfo
  galaxy_chart : GalaxyChart
  galaxy_chart_fillings_version : Nat
  picture : Bool
deriving DecidableEq, Repr

/-- The full export bundle produced on success. -/
structure ExportArchive where
  rootName : String
  mod_meta_data : ModMetaData
  uniforms : ScenarioUniforms
  picture : Bool
  scenario : ScenarioArchive
  localized_name : String
  localized_desc : String
  logo : Bool
deriving DecidableEq, Repr

/-- The ways `exportZip` refuses to export. -/
inductive ExportError
  | unrecognizedBodyTypes (ids : List String)
  | schemaScenario
  | schemaUniforms
  | teamCountMissing
  | warningsPresent (ws : List String)
  | displayNameBlank
deriving DecidableEq, Repr

/-- The JS regex `.` does not match line terminators; both permissive
patterns below have affixes free of them, so checking the whole id is
equivalent to checking the `.+` portion. -/
def noDotBreak (s : String) : Bool :=
  s.data.all (fun c => c ≠ '\n' ∧ c ≠ '\r')

/-- List-level `startsWith` (the first list leads the second). -/
def listStarts : List Char → List Char → Bool
  | [], _ => true
  | _ :: _, [] => false
  | c :: cs, d :: ds => c = d && listStarts cs ds

/-- `String.startsWith`, computed on the underlying character lists. -/
def strStartsWith (s pre : String) : Bool := listStarts pre.data s.data

/-- `String.endsWith`, computed on the underlying character lists. -/
def strEndsWith (s suf : String) : Bool := listStarts suf.data.reverse s.data.reverse

/-- `isGameFillingId`: the permissive "looks like a valid game identifier"
pattern check of `exportZip`. -/
def isGameFillingId (id : String) : Bool :=
  (strStartsWith id "random_" && 7 < id.length && noDotBreak id)
  || id = "player_home_planet"
  || (strStartsWith id "home_" && strEndsWith id "_planet" && 13 ≤ id.length && noDotBreak id)
  || id = "wormhole_fixture"

/-- `Array.from(new Set(xs))`: deduplicate keeping first occurrences. -/
def dedupFirst (xs : List String) : List String :=
  xs.foldl (fun acc x => if x ∈ acc then acc else acc ++ [x]) []

/-- The unrecognized body-type ids of `exportZip`: no curated mapping, not a
curated registry id, and not matching the permissive pattern. -/
def unknownIds (nodes : List NodeItem) : List String :=
  dedupFirst ((nodes.map (fun n => n.filling_name)).filter (fun id =>
    if toGameFillingName id ≠ id then false
    else if inRegistry id then false
    else ¬ isGameFillingId id))

/-- The project state read by `exportZip` (the React state it closes over;
the logo data URL is abstracted to a presence flag). -/
structure ProjectState where
  nodes : List NodeItem
  lanes : List PhaseLane
  scenarioName : String
  skybox : String
  players : Int
  teamCount : Option Int
  displayName : String
  displayVersion : String
  author : String
  shortDescription : String
  hasLogo : Bool
deriving Repr

/-- `exportZip`: the export action.  The AJV validators are parameters
(`none` when the schema fetch has not completed — their absence does not
block export), as is the snapshot-capture outcome.  The archive is only
assembled after every check passes, so a refusal produces no output at
all. -/
def exportZip (vS : Option (GalaxyChart → Bool)) (vU : Option (ScenarioUniforms → Bool))
    (png : Bool) (st : ProjectState) : Except ExportError ExportArchive :=
  let unknown := unknownIds st.nodes
  if unknown ≠ [] then .error (.unrecognizedBodyTypes unknown)
  else
    let scenario := buildScenarioJSON st.nodes st.lanes st.skybox
    let scenarioFileBase := sanitizeName st.scenarioName
    let uniformsObj := buildScenarioUniformsObject scenarioFileBase
    if (match vS with | some f => !(f scenario) | none => (false : Bool)) then .error .schemaScenario
    else if (match vU with | some f => !(f uniformsObj) | none => (false : Bool)) then .error .schemaUniforms
    else
      match st.teamCount with
      | none => .error .teamCountMissing
      | some tc =>
        let warnings := computeWarnings st.nodes st.lanes st.players
        if warnings ≠ [] then .error (.warningsPresent warnings)
        else if strBlank st.displayName then .error .displayNameBlank
        else
          let preferredDisplayName := jsTrimStr st.displayName
          let dispVer := if ¬ strBlank st.displayVersion then jsTrimStr st.displayVersion else "1.0.0"
          let meta := buildModMetaData st.scenarioName 2 preferredDisplayName dispVer
            st.author st.shortDescription (if st.hasLogo then "logo.png" else "picture.png")
          let info := buildScenarioInfoJSON st.nodes st.lanes st.players tc scenarioFileBase
          .ok
            { rootName := scenarioFileBase
              mod_meta_data := meta
              uniforms := uniformsObj
              picture := png
              scenario :=
                { scenario_info := info
                  galaxy_chart := scenario
                  galaxy_chart_fillings_version := 1
                  picture := png }
              localized_name := preferredDisplayName
              localized_desc :=
                if ¬ strBlank st.shortDescription then jsTrimStr st.shortDescription
                else st.scenarioName ++ " created with www.sins2-mapmaker.com"
              logo := st.hasLogo }

/-! ### The scenario graph model: in-session mutation operations

Each handler of `App.tsx` that can mutate the node/lane collections becomes
a total function on an editor state; a rejected mutation (JS `alert` +
`return`, or a declined `confirm`) returns the state unchanged.  Random
spawn positions, snapped drag positions and UI selections become explicit
parameters. -/

/-- The slice of React state the mutation handlers read and write. -/
structure EditorState where
  nodes : List NodeItem
  lanes : List PhaseLane
  nextNodeId : Nat
  nextLaneId : Nat
  newBodyParentStarId : Option Nat
  players : Int
deriving Repr

/-- `DEFAULT_BODY_TYPE_ID` of `bodyTypes.ts`. -/
def DEFAULT_BODY_TYPE_ID : String := "planet_terran"

/-- The failure modes of `addNode` (each an `alert` + early return). -/
inductive AddNodeError
  | starLimit | noStars | noParentSelected | bodyLimit
deriving DecidableEq, Repr

/-- `addNode` of `App.tsx`: note the id counter is consumed before any
check, exactly as `nextNodeId.current++` is in the source. -/
def addNode (s : EditorState) (typeId : Option String) (px py : Int) :
    EditorState × Option AddNodeError :=
  let id := s.nextNodeId
  let s' := { s with nextNodeId := s.nextNodeId + 1 }
  let filling := typeId.getD DEFAULT_BODY_TYPE_ID
  let isStar := categoryOf filling = some BodyCat.star
  if isStar then
    if 15 ≤ (starsOf s'.nodes).length then (s', some AddNodeError.starLimit)
    else
      let newNode : NodeItem :=
        { id := id, filling_name := filling, posX := px, posY := py
          initial_category := BodyCat.star }
      ({ s' with nodes := s'.nodes ++ [newNode] }, none)
  else
    if (starsOf s'.nodes).length = 0 then (s', some AddNodeError.noStars)
    else
      match s'.newBodyParentStarId with
      | none => (s', some AddNodeError.noParentSelected)
      | some parent =>
        if 100 ≤ (s'.nodes.filter (fun n => n.parent_star_id = some parent)).length then
          (s', some AddNodeError.bodyLimit)
        else
          let newNode : NodeItem :=
            { id := id, filling_name := filling, posX := px, posY := py
              parent_star_id := some parent
              initial_category := (categoryOf filling).getD BodyCat.planet }
          ({ s' with nodes := s'.nodes ++ [newNode] }, none)

/-- `updateNodePosition` (drag end); the snapped coordinates arrive as
parameters. -/
def updateNodePosition (s : EditorState) (nid : Nat) (px py : Int) : EditorState :=
  { s with nodes := s.nodes.map (fun n =>
      if n.id = nid then { n with posX := px, posY := py } else n) }

/-- The Body Type select handler: rejects any star/non-star boundary
crossing against the frozen `initial_category`, enforces the star limit
when re-entering star category, resolves and validates a parent star for
non-star targets, and enforces the per-star body limit. -/
def setBodyType (s : EditorState) (nid : Nat) (newTypeId : String) : EditorState :=
  match findNode s.nodes nid with
  | none => s
  | some sel =>
    match categoryOf newTypeId with
    | none => s
    | some newCategory =>
      let initiallyStar := sel.initial_category = BodyCat.star
      if initiallyStar ∧ newCategory ≠ BodyCat.star then s
      else if ¬ initiallyStar ∧ newCategory = BodyCat.star then s
      else
        let currentCategory := categoryOf sel.filling_name
        if newCategory = BodyCat.star then
          if currentCategory ≠ some BodyCat.star ∧ 15 ≤ (starsOf s.nodes).length then s
          else
            { s with nodes := s.nodes.map (fun n =>
                if n.id = sel.id then
                  { n with filling_name := newTypeId, parent_star_id := none
                           has_artifact := false, artifact_name := none }
                else n) }
        else
          let starNodes := starsOf s.nodes
          if starNodes.length = 0 then s
          else
            let hasValidCurrentParent :=
              match sel.parent_star_id with
              | some p => starNodes.any (fun st => st.id = p)
              | none => false
            let parentStarId : Option Nat :=
              if hasValidCurrentParent then sel.parent_star_id
              else
                match s.newBodyParentStarId with
                | some cand =>
                  if starNodes.any (fun st => st.id = cand) then some cand
                  else if starNodes.length = 1 then (starNodes.head?).map (fun st => st.id)
                  else none
                | none =>
                  if starNodes.length = 1 then (starNodes.head?).map (fun st => st.id)
                  else none
            match parentStarId with
            | none => s
            | some pid =>
              if 100 ≤ (s.nodes.filter (fun n => n.parent_star_id = some pid ∧ n.id ≠ sel.id)).length then s
              else
                { s with nodes := s.nodes.map (fun n =>
                    if n.id = sel.id then
                      { n with filling_name := newTypeId, parent_star_id := some pid }
                    else n) }

/-- The Parent Star select handler (rendered only for non-star nodes). -/
def setParentStar (s : EditorState) (nid : Nat) (target : Option Nat) : EditorState :=
  match findNode s.nodes nid with
  | none => s
  | some sel =>
    match target with
    | none =>
      { s with nodes := s.nodes.map (fun n =>
          if n.id = sel.id then { n with parent_star_id := none } else n) }
    | some t =>
      if 100 ≤ (s.nodes.filter (fun n => n.parent_star_id = some t ∧ n.id ≠ sel.id)).length then s
      else
        { s with nodes := s.nodes.map (fun n =>
            if n.id = sel.id then { n with parent_star_id := some t } else n) }

/-- The Chance of Loot select handler: choosing 0% forces the loot level
to 0, any other value clears the loot level. -/
def setChanceOfLoot (s : EditorState) (nid : Nat) (chance : Rat) : EditorState :=
  { s with nodes := s.nodes.map (fun n =>
      if n.id ≠ nid then n
      else if chance = 0 then { n with chance_of_loot := some 0, loot_level := some 0 }
      else { n with chance_of_loot := some chance, loot_level := none }) }

/-- The Loot Level select handler: choosing level 0 forces the chance
to 0. -/
def setLootLevel (s : EditorState) (nid : Nat) (lvl : Int) : EditorState :=
  { s with nodes := s.nodes.map (fun n =>
      if n.id ≠ nid then n
      else if lvl = 0 then { n with loot_level := some 0, chance_of_loot := some 0 }
      else { n with loot_level := some lvl }) }

/-- The Has Artifact select handler. -/
def setHasArtifact (s : EditorState) (nid : Nat) (v : Bool) : EditorState :=
  { s with nodes := s.nodes.map (fun n =>
      if n.id ≠ nid then n
      else if v then { n with has_artifact := true }
      else { n with has_artifact := false, artifact_name := none }) }

/-- The Artifact Name select handler (`v || undefined`). -/
def setArtifactName (s : EditorState) (nid : Nat) (v : String) : EditorState :=
  { s with nodes := s.nodes.map (fun n =>
      if n.id = nid then { n with artifact_name := if v = "" then none else some v } else n) }

/-- The ownership mode chosen in the Ownership select. -/
inductive OwnershipMode
  | unowned | player | npc
deriving DecidableEq, Repr

/-- The first player index in `0 .. players-1` not used by another non-star
node (the assignment loop of the ownership handler). -/
def firstFreePlayerIndex (nodes : List NodeItem) (selfId : Nat) (players : Int) : Option Int :=
  let used := nodes.foldl (fun acc m =>
    if m.id = selfId then acc
    else if isStarNode m then acc
    else match playerIndexOf m with
      | some p => if 0 ≤ p then acc ++ [p] else acc
      | none => acc) []
  (List.range players.toNat).findSome? (fun i =>
    if (i : Int) ∈ used then none else some (i : Int))

/-- The Ownership select handler (rendered only for non-star nodes):
player mode checks the ownable whitelist and allocates the first free
index, forcing loot to 0/0 and clearing artifacts; NPC mode installs the
militia/default record and clears loot and artifacts. -/
def setOwnershipMode (s : EditorState) (nid : Nat) (mode : OwnershipMode) : EditorState :=
  match findNode s.nodes nid with
  | none => s
  | some sel =>
    match mode with
    | OwnershipMode.player =>
      if ¬ PLAYER_OWNABLE_TYPES.contains sel.filling_name then s
      else
        match firstFreePlayerIndex s.nodes sel.id s.players with
        | none => s
        | some assign =>
          { s with nodes := s.nodes.map (fun n =>
              if n.id = sel.id then
                { n with ownership := some { player_index := some assign }
                         chance_of_loot := some 0, loot_level := some 0
                         has_artifact := false, artifact_name := none }
              else n) }
    | OwnershipMode.unowned =>
      { s with nodes := s.nodes.map (fun n =>
          if n.id = sel.id then
            { n with ownership := none, chance_of_loot := none, loot_level := none }
          else n) }
    | OwnershipMode.npc =>
      { s with nodes := s.nodes.map (fun n =>
          if n.id = sel.id then
            { n with ownership := some { npc_filling_type := some NpcType.militia
                                         npc_filling_name := some "default" }
                     chance_of_loot := none, loot_level := none
                     has_artifact := false, artifact_name := none }
          else n) }

/-- The Player Index input handler: whitelist check, clamp into range,
conflict check, then merge the new index into the ownership record. -/
def setPlayerIndex (s : EditorState) (nid : Nat) (raw : Int) : EditorState :=
  match findNode s.nodes nid with
  | none => s
  | some sel =>
    if ¬ PLAYER_OWNABLE_TYPES.contains sel.filling_name then s
    else
      let newIdx := max 0 (min (max 0 (s.players - 1)) raw)
      let conflict := s.nodes.any (fun m =>
        m.id ≠ sel.id ∧ ¬ isStarNode m ∧ playerIndexOf m = some newIdx)
      if conflict then s
      else
        { s with nodes := s.nodes.map (fun n =>
            if n.id = sel.id then
              { n with ownership := some { n.ownership.getD {} with player_index := some newIdx } }
            else n) }

/-- The NPC Type select handler. -/
def setNpcType (s : EditorState) (nid : Nat) (t : NpcType) : EditorState :=
  { s with nodes := s.nodes.map (fun n =>
      if n.id = nid then
        { n with ownership := some { n.ownership.getD {} with npc_filling_type := some t } }
      else n) }

/-- The NPC Filling Name handlers (select and custom input). -/
def setNpcName (s : EditorState) (nid : Nat) (v : String) : EditorState :=
  { s with nodes := s.nodes.map (fun n =>
      if n.id = nid then
        { n with ownership := some { n.ownership.getD {} with npc_filling_name := some v } }
      else n) }

/-- `onNodeClick` in link mode with a pending start node: the lane-creation
path, including the duplicate check, the one-star-link-per-planet rules and
the implicit `parent_star_id` assignment (JS truthiness makes a parent id
of 0 behave as unset). -/
def linkNodes (s : EditorState) (aId bId : Nat) (laneType : LaneType) : EditorState :=
  if aId = bId then s
  else
    let dup := s.lanes.any (fun l =>
      (l.node_a = aId ∧ l.node_b = bId) ∨ (l.node_b = aId ∧ l.node_a = bId))
    if dup then s
    else
      match findNode s.nodes aId, findNode s.nodes bId with
      | some a, some b =>
        let aCat := categoryOf a.filling_name
        let bCat := categoryOf b.filling_name
        let isPlanetStar :=
          (aCat = some BodyCat.planet ∧ bCat = some BodyCat.star) ∨
          (aCat = some BodyCat.star ∧ bCat = some BodyCat.planet)
        let mkLane : PhaseLane :=
          { id := s.nextLaneId, node_a := aId, node_b := bId, type := some laneType }
        if isPlanetStar then
          let planetId := if aCat = some BodyCat.planet then a.id else b.id
          let starId := if aCat = some BodyCat.star then a.id else b.id
          let existingStarLink := s.lanes.find? (fun l =>
            let otherId : Option Nat :=
              if l.node_a = planetId then some l.node_b
              else if l.node_b = planetId then some l.node_a else none
            match otherId with
            | none => false
            | some oid =>
              match findNode s.nodes oid with
              | some other => isStarNode other
              | none => false)
          let blockedByLink : Bool :=
            match existingStarLink with
            | some l =>
              (if l.node_a = planetId then l.node_b else l.node_a) != starId
            | none => false
          if blockedByLink then s
          else
            let blockedByParent : Bool :=
              match findNode s.nodes planetId with
              | some pn =>
                match pn.parent_star_id with
                | some p => p != 0 && p != starId
                | none => false
              | none => false
            if blockedByParent then s
            else
              let s1 := { s with lanes := s.lanes ++ [mkLane], nextLaneId := s.nextLaneId + 1 }
              { s1 with nodes := s1.nodes.map (fun n =>
                  if n.id = planetId ∧ (n.parent_star_id = none ∨ n.parent_star_id = some 0) then
                    { n with parent_star_id := some starId }
                  else n) }
        else { s with lanes := s.lanes ++ [mkLane], nextLaneId := s.nextLaneId + 1 }
      | _, _ => s

/-- `onLaneClick` in lane-delete mode: remove the lane and clear the
planet's `parent_star_id` if its last star link disappeared. -/
def removeLane (s : EditorState) (laneId : Nat) : EditorState :=
  let removed := s.lanes.find? (fun l => l.id = laneId)
  let s1 := { s with lanes := s.lanes.filter (fun l => l.id ≠ laneId) }
  match removed with
  | none => s1
  | some rl =>
    let aCat := match findNode s.nodes rl.node_a with
      | some x => categoryOf x.filling_name | none => none
    let bCat := match findNode s.nodes rl.node_b with
      | some x => categoryOf x.filling_name | none => none
    if (aCat = some BodyCat.planet ∧ bCat = some BodyCat.star) ∨
       (aCat = some BodyCat.star ∧ bCat = some BodyCat.planet) then
      let planetId := if aCat = some BodyCat.planet then rl.node_a else rl.node_b
      let starId := if aCat = some BodyCat.star then rl.node_a else rl.node_b
      let stillLinked := s.lanes.any (fun l =>
        l.id != laneId && (l.node_a == planetId || l.node_b == planetId) &&
        (match findNode s.nodes (if l.node_a = planetId then l.node_b else l.node_a) with
         | some other => isStarNode other
         | none => false))
      if ¬ stillLinked then
        { s1 with nodes := s1.nodes.map (fun n =>
            if n.id = planetId ∧ n.parent_star_id = some starId then
              { n with parent_star_id := none }
            else n) }
      else s1
    else s1

/-- `removeLastLane` ("Undo Lane"). -/
def removeLastLane (s : EditorState) : EditorState :=
  { s with lanes := s.lanes.dropLast }

/-- `removeSelected`: deleting a star with dependent bodies only opens the
reassignment modal (or alerts when it is the only star) — no mutation;
otherwise the node and its incident lanes are removed after the
user confirms (`confirmOk`). -/
def removeSelected (s : EditorState) (nid : Nat) (confirmOk : Bool) : EditorState :=
  match findNode s.nodes nid with
  | none => s
  | some sel =>
    let category := categoryOf sel.filling_name
    let hasLaneLinks := s.lanes.any (fun l => l.node_a = nid ∨ l.node_b = nid)
    if category = some BodyCat.star then
      let dependentBodies := s.nodes.filter (fun n =>
        n.parent_star_id = some sel.id ∧ ¬ isStarNode n)
      if dependentBodies.length ≠ 0 then s
      else if hasLaneLinks ∧ ¬ confirmOk then s
      else
        { s with nodes := s.nodes.filter (fun n => n.id ≠ nid)
                 lanes := s.lanes.filter (fun l => l.node_a ≠ nid ∧ l.node_b ≠ nid) }
    else
      if hasLaneLinks ∧ ¬ confirmOk then s
      else
        { s with nodes := s.nodes.filter (fun n => n.id ≠ nid)
                 lanes := s.lanes.filter (fun l => l.node_a ≠ nid ∧ l.node_b ≠ nid) }

/-- The "Reassign & Delete" button of the star-deletion modal: guards
(target chosen, distinct from the source, per-star body limit), then the
atomic reassignment of dependents, deletion of the source star and removal
of its incident lanes. -/
def reassignAndDeleteStar (s : EditorState) (source : Nat) (target : Option Nat) : EditorState :=
  match target with
  | none => s
  | some t =>
    if t = source then s
    else
      let dependentBodies := s.nodes.filter (fun n =>
        n.parent_star_id = some source ∧ ¬ isStarNode n)
      let existingAtTarget := (s.nodes.filter (fun n => n.parent_star_id = some t)).length
      if 100 < existingAtTarget + dependentBodies.length then s
      else
        { s with
          nodes := (s.nodes.filter (fun n => n.id ≠ source)).map (fun n =>
            if n.parent_star_id = some source then { n with parent_star_id := some t } else n)
          lanes := s.lanes.filter (fun l => l.node_a ≠ source ∧ l.node_b ≠ source) }

/-- One in-session mutation.  UI render/disable guards that keep a handler
from firing at all become hypotheses (the loot, artifact, ownership and
parent-star controls are only rendered for eligible nodes). -/
inductive Step : EditorState → EditorState → Prop
  | ofAddNode (s : EditorState) (typeId : Option String) (px py : Int) :
      Step s (addNode s typeId px py).1
  | ofMove (s : EditorState) (nid : Nat) (px py : Int) :
      Step s (updateNodePosition s nid px py)
  | ofSetBodyType (s : EditorState) (nid : Nat) (newTypeId : String) :
      Step s (setBodyType s nid newTypeId)
  | ofSetParentStar (s : EditorState) (nid : Nat) (target : Option Nat)
      (hsel : ∀ n, findNode s.nodes nid = some n → nodeCategory n ≠ some BodyCat.star) :
      Step s (setParentStar s nid target)
  | ofSetChance (s : EditorState) (nid : Nat) (chance : Rat)
      (hsel : ∀ n, findNode s.nodes nid = some n → playerIndexOf n = none) :
      Step s (setChanceOfLoot s nid chance)
  | ofSetLootLevel (s : EditorState) (nid : Nat) (lvl : Int)
      (hsel : ∀ n, findNode s.nodes nid = some n → playerIndexOf n = none) :
      Step s (setLootLevel s nid lvl)
  | ofSetHasArtifact (s : EditorState) (nid : Nat) (v : Bool) :
      Step s (setHasArtifact s nid v)
  | ofSetArtifactName (s : EditorState) (nid : Nat) (v : String) :
      Step s (setArtifactName s nid v)
  | ofSetOwnershipMode (s : EditorState) (nid : Nat) (mode : OwnershipMode)
      (hsel : ∀ n, findNode s.nodes nid = some n → nodeCategory n ≠ some BodyCat.star) :
      Step s (setOwnershipMode s nid mode)
  | ofSetPlayerIndex (s : EditorState) (nid : Nat) (raw : Int) :
      Step s (setPlayerIndex s nid raw)
  | ofSetNpcType (s : EditorState) (nid : Nat) (t : NpcType) :
      Step s (setNpcType s nid t)
  | ofSetNpcName (s : EditorState) (nid : Nat) (v : String) :
      Step s (setNpcName s nid v)
  | ofLink (s : EditorState) (aId bId : Nat) (laneType : LaneType) :
      Step s (linkNodes s aId bId laneType)
  | ofRemoveLane (s : EditorState) (laneId : Nat) :
      Step s (removeLane s laneId)
  | ofRemoveLastLane (s : EditorState) :
      Step s (removeLastLane s)
  | ofRemoveSelected (s : EditorState) (nid : Nat) (confirmOk : Bool) :
      Step s (removeSelected s nid confirmOk)
  | ofReassignDelete (s : EditorState) (source : Nat) (target : Option Nat) :
      Step s (reassignAndDeleteStar s source target)
  | ofSetParentSelector (s : EditorState) (v : Option Nat) :
      Step s { s with newBodyParentStarId := v }
  | ofSetPlayers (s : EditorState) (p : Int) :
      Step s { s with players := max 2 (min 10 p) }

/-- Any sequence of in-session mutations. -/
def Steps : EditorState → EditorState → Prop := Relation.ReflTransGen Step

/-- The node ids of a collection. -/
def idsOf (nodes : List NodeItem) : List Nat := nodes.map (fun n => n.id)

/-- The session invariant: unique node ids, ids below the allocator
counter, and every initially-star node still has star category and no
parent star. -/
structure GoodState (s : EditorState) : Prop where
  nodup : (idsOf s.nodes).Nodup
  idsLt : ∀ n ∈ s.nodes, n.id < s.nextNodeId
  starCat : ∀ n ∈ s.nodes, n.initial_category = BodyCat.star →
    nodeCategory n = some BodyCat.star
  starNoParent : ∀ n ∈ s.nodes, n.initial_category = BodyCat.star →
    n.parent_star_id = none

/-- Cross-state facts carried along a mutation sequence: the target is
again a good state, the id allocator is monotone, and every node whose id
predates the source state's allocator already existed in the source with
the same frozen initial category. -/
def Tracked (s s' : EditorState) : Prop :=
  GoodState s' ∧ s.nextNodeId ≤ s'.nextNodeId
  ∧ ∀ n' ∈ s'.nodes, n'.id < s.nextNodeId →
      ∃ n ∈ s.nodes, n.id = n'.id ∧ n'.initial_category = n.initial_category

/-- The initial editor state of the app (one star, id 1). -/
def initState : EditorState :=
  { nodes := [{ id := 1, filling_name := "star", posX := 360, posY := 280
                initial_category := BodyCat.star }]
    lanes := [], nextNodeId := 2, nextLaneId := 1
    newBodyParentStarId := none, players := 2 }

/-! ### Claim-side notions

Mathematical renderings of the spec's wording, to be compared with the
source translations above. -/

/-- Two node ids are lane-adjacent: both exist in the node collection and
some lane joins them (in either orientation) — the edge relation of the
undirected lane graph the reachability warning is specified against. -/
def adjRel (nodes : List NodeItem) (lanes : List PhaseLane) (a b : Nat) : Prop :=
  a ∈ idsOf nodes ∧ b ∈ idsOf nodes ∧
    ∃ l ∈ lanes, (l.node_a = a ∧ l.node_b = b) ∨ (l.node_a = b ∧ l.node_b = a)

/-- Lane-graph reachability: the reflexive-transitive closure of
lane-adjacency. -/
def laneReachable (nodes : List NodeItem) (lanes : List PhaseLane) (a b : Nat) : Prop :=
  Relation.ReflTransGen (adjRel nodes lanes) a b

/-- One step along a stored adjacency list (the edge relation the BFS of the
reachability check actually walks). -/
def stepRel (adj : List (Nat × List Nat)) (a b : Nat) : Prop :=
  b ∈ alistGetD adj a []

/-- Modelled from the spec (§4.3 step 2): the node is the first-encountered
non-star node owned by its own (nonnegative) player index. -/
def claimIsHome (nodes : List NodeItem) (n : NodeItem) : Bool :=
  match playerIndexOf n with
  | some i =>
    0 ≤ i && ((nonStarsOf nodes).find? (fun m => playerIndexOf m == some i) == some n)
  | none => false

/-! ### Concrete scenario states (used by witnesses and counterexamples) -/

/-- A star with its loot fields filled in. -/
def wStar1 : NodeItem :=
  { id := 1, filling_name := "star", chance_of_loot := some 0, loot_level := some 0
    initial_category := BodyCat.star }

/-- A warning-free planet under star 1. -/
def wOkPlanet : NodeItem :=
  { id := 2, filling_name := "planet_terran", parent_star_id := some 1
    chance_of_loot := some 0, loot_level := some 0, initial_category := BodyCat.planet }

/-- An NPC-owned planet carrying a legal artifact, loot fields set. -/
def wNpcArtifactPlanet : NodeItem :=
  { id := 2, filling_name := "planet_terran", parent_star_id := some 1
    ownership := some { npc_filling_type := some NpcType.militia
                        npc_filling_name := some "pirate" }
    chance_of_loot := some (1/2), loot_level := some 1
    has_artifact := true, artifact_name := some "culture_bonus_planet_artifact"
    initial_category := BodyCat.planet }

/-- A planet whose body-type id is recognized by neither the curated table
nor the permissive pattern, but which triggers no warnings. -/
def wMystPlanet : NodeItem :=
  { id := 2, filling_name := "mystery_rock", parent_star_id := some 1
    chance_of_loot := some 0, loot_level := some 0, initial_category := BodyCat.planet }

/-- The lane joining nodes 1 and 2. -/
def wLane12 : PhaseLane := { id := 1, node_a := 1, node_b := 2, type := some LaneType.normal }

/-- A second warning-free planet under star 1, with id 3. -/
def wPlanet3 : NodeItem :=
  { id := 3, filling_name := "planet_ice", parent_star_id := some 1
    chance_of_loot := some 0, loot_level := some 0, initial_category := BodyCat.planet }

/-- The lane joining nodes 1 and 3 (lane id 2). -/
def wLane13 : PhaseLane := { id := 2, node_a := 1, node_b := 3, type := some LaneType.normal }

/-- A node with an explicit loot chance of zero but no loot level. -/
def wChanceZeroNode : NodeItem :=
  { id := 7, filling_name := "planet_terran", parent_star_id := some 1
    chance_of_loot := some 0, loot_level := none, initial_category := BodyCat.planet }

/-- A project state whose only flaw is the unrecognized body type. -/
def wStateMyst : ProjectState :=
  { nodes := [wStar1, wMystPlanet], lanes := [wLane12], scenarioName := "MyScenario"
    skybox := "skybox_random", players := 2, teamCount := some 0
    displayName := "My Map", displayVersion := "1.0.0", author := ""
    shortDescription := "", hasLogo := false }

/-- A fully warning-free, metadata-complete project state. -/
def wStateOk : ProjectState :=
  { nodes := [wStar1, wOkPlanet], lanes := [wLane12], scenarioName := "MyScenario"
    skybox := "skybox_random", players := 2, teamCount := some 0
    displayName := "My Map", displayVersion := "1.0.0", author := ""
    shortDescription := "", hasLogo := false }

/-- Fifteen stars (ids 1..15). -/
def wFifteenStars : List NodeItem :=
  (List.range 15).map (fun i =>
    { id := i + 1, filling_name := "star", initial_category := BodyCat.star })

/-- An editor state holding exactly 15 stars. -/
def wS15 : EditorState :=
  { nodes := wFifteenStars, lanes := [], nextNodeId := 16, nextLaneId := 1
    newBodyParentStarId := none, players := 2 }

/-- A star with 100 bodies under it (ids 2..101). -/
def wFullStarNodes : List NodeItem :=
  { id := 1, filling_name := "star", initial_category := BodyCat.star } ::
    (List.range 100).map (fun i =>
      { id := i + 2, filling_name := "planet_ice", parent_star_id := some 1
        initial_category := BodyCat.planet })

/-- An editor state whose single star already carries 100 bodies. -/
def wS100 : EditorState :=
  { nodes := wFullStarNodes, lanes := [], nextNodeId := 102, nextLaneId := 1
    newBodyParentStarId := some 1, players := 2 }

/-- A non-star node with no parent star (omitted from the export tree). -/
def wOrphan : NodeItem :=
  { id := 5, filling_name := "planet_ice", parent_star_id := none
    initial_category := BodyCat.planet }

/-- A player-owned planet under star 1 (player index 0, loot forced to
zero). -/
def wPlayerPlanet : NodeItem :=
  { id := 2, filling_name := "planet_terran", parent_star_id := some 1
    ownership := some { player_index := some 0 }
    chance_of_loot := some 0, loot_level := some 0
    initial_category := BodyCat.planet }

/-- A two-star editor state: star 1 carries one body, star 3 none. -/
def wReState : EditorState :=
  { nodes := [wStar1, wOkPlanet,
      { id := 3, filling_name := "star", initial_category := BodyCat.star }]
    lanes := [wLane12], nextNodeId := 4, nextLaneId := 2
    newBodyParentStarId := none, players := 2 }

end Sins2

namespace Sins2

/-! ## Theorems -/

/-! ### C7: loot-completeness warnings -/

/-- C7 (amended): the loot block warns on a node exactly when the node has
no explicit loot chance, or has a loot chance (of any value, including
zero) but no explicit loot level, or is player-owned with chance and level
not both exactly zero, or is player-owned and carries an artifact. -/
theorem c7_loot_warning_iff (n : NodeItem) :
    lootChecks n ≠ [] ↔
      (n.chance_of_loot = none ∨
       (n.chance_of_loot.isSome ∧ n.loot_level = none) ∨
       (isPlayerOwnedNode n ∧ ¬(n.chance_of_loot = some 0 ∧ n.loot_level = some 0)) ∨
       (isPlayerOwnedNode n ∧ n.has_artifact)) := by
  unfold lootChecks
  rcases hc : n.chance_of_loot with _ | c <;>
    rcases hl : n.loot_level with _ | l <;>
      by_cases hp : isPlayerOwnedNode n <;>
        by_cases hart : n.has_artifact <;>
          simp [hc, hl, hp, hart]

/-- C7 counterexample: a node that is not player-owned, has no artifact and
has its loot chance explicitly set to zero — the claim predicts no loot
warning for it — nevertheless receives one, because the code demands a loot
level whenever a chance is present, zero included. -/
theorem c7_counterexample :
    lootChecks wChanceZeroNode ≠ [] ∧
      wChanceZeroNode.chance_of_loot = some 0 ∧
      wChanceZeroNode.loot_level = none ∧
      wChanceZeroNode.ownership = none ∧
      wChanceZeroNode.has_artifact = false := by
  refine ⟨?_, rfl, rfl, rfl, rfl⟩
  decide

/-! ### C8: artifact-validity warnings -/

/-- C8 (amended): the artifact block flags a node exactly when it has an
artifact but either its category is not allowed (planet, moon, asteroid or
the pirate-base special case) or its artifact name is not a member of the
closed enumeration; a star-category node with an artifact is always
flagged, and a player-owned node with an artifact is always flagged by the
loot block.  (NPC-owned nodes are not flagged by the warning engine — only
the UI prevents giving them artifacts — so the claim's NPC clause fails,
see the counterexample.) -/
theorem c8_artifact_warning_iff (n : NodeItem) :
    (artifactChecks n ≠ [] ↔
      n.has_artifact ∧
        ¬((¬ artifactNameInvalid n.artifact_name) ∧ allowedArtifactCategory n))
    ∧ (nodeCategory n = some BodyCat.star → n.has_artifact → artifactChecks n ≠ [])
    ∧ (isPlayerOwnedNode n → n.has_artifact → lootChecks n ≠ []) := by
  refine ⟨?_, ?_, ?_⟩
  · unfold artifactChecks
    by_cases hart : n.has_artifact <;>
      by_cases hcat : allowedArtifactCategory n <;>
        by_cases hname : artifactNameInvalid n.artifact_name <;>
          simp [hart, hcat, hname]
  · intro hstar hart
    have hcat : allowedArtifactCategory n = false := by
      unfold allowedArtifactCategory
      have hpb : n.filling_name ≠ "planet_pirate_base" := by
        intro h
        rw [nodeCategory, h] at hstar
        simp [categoryOf] at hstar
      simp [hstar, hpb]
    unfold artifactChecks
    simp [hart, hcat]
  · intro hp hart
    unfold lootChecks
    simp [hp, hart]

/-- C8 witness: the amended theorem applied to a star node carrying an
artifact, and to a player-owned node carrying one. -/
theorem c8_witness :
    (artifactChecks { wStar1 with has_artifact := true } ≠ []) ∧
      (lootChecks { wOkPlanet with
          ownership := some { player_index := some 0 }, has_artifact := true } ≠ []) := by
  constructor
  · exact (c8_artifact_warning_iff { wStar1 with has_artifact := true }).2.1
      (by decide) (by decide)
  · exact (c8_artifact_warning_iff { wOkPlanet with
        ownership := some { player_index := some 0 }, has_artifact := true }).2.2
      (by decide) (by decide)

/-- C8 counterexample: an NPC-owned node with `has_artifact = true` (legal
name, allowed category, loot fields complete) in an otherwise well-formed
scenario receives no warning at all, contradicting the claim that
NPC-owned nodes with artifacts always receive at least one. -/
theorem c8_counterexample :
    computeWarnings [wStar1, wNpcArtifactPlanet] [wLane12] 2 = [] ∧
      wNpcArtifactPlanet.has_artifact = true ∧
      (wNpcArtifactPlanet.ownership.bind (fun o => o.npc_filling_name)) = some "pirate" := by
  refine ⟨?_, rfl, rfl⟩
  decide

/-! ### C5: add-node limits -/

/-- C5: with 15 stars already present, adding a star fails with the star
limit error and leaves the node collection unchanged (still 15 stars);
adding a non-star body whose selected parent star already carries 100
bodies fails with the body limit error and leaves the collection
unchanged. -/
theorem c5_add_node_limits (s : EditorState) (typeId : Option String) (px py : Int) :
    ((starsOf s.nodes).length = 15 →
      categoryOf (typeId.getD DEFAULT_BODY_TYPE_ID) = some BodyCat.star →
      (addNode s typeId px py).1.nodes = s.nodes ∧
        (addNode s typeId px py).2 = some AddNodeError.starLimit ∧
        (starsOf (addNode s typeId px py).1.nodes).length = 15)
    ∧ (∀ parent : Nat,
        s.newBodyParentStarId = some parent →
        parent ∈ starIdsOf s.nodes →
        categoryOf (typeId.getD DEFAULT_BODY_TYPE_ID) ≠ some BodyCat.star →
        (s.nodes.filter (fun n => n.parent_star_id = some parent)).length = 100 →
        (addNode s typeId px py).1.nodes = s.nodes ∧
          (addNode s typeId px py).2 = some AddNodeError.bodyLimit) := by
  constructor
  · intro h15 hstar
    refine ⟨?_, ?_, ?_⟩ <;> simp [addNode, hstar, h15]
  · intro parent hsel hpmem hnonstar h100
    have hstars : (starsOf s.nodes).length ≠ 0 := by
      intro h0
      have hlen : (starIdsOf s.nodes).length = 0 := by
        unfold starIdsOf starsOf at *
        simpa using h0
      rw [List.length_eq_zero] at hlen
      rw [hlen] at hpmem
      exact (List.not_mem_nil parent) hpmem
    refine ⟨?_, ?_⟩ <;> simp [addNode, hnonstar, hstars, hsel, h100]

/-- C5 witness: the theorem applied to a state with exactly 15 stars and to
a state whose selected parent star has exactly 100 bodies. -/
theorem c5_witness :
    ((addNode wS15 (some "star") 0 0).1.nodes = wS15.nodes ∧
      (addNode wS15 (some "star") 0 0).2 = some AddNodeError.starLimit ∧
      (starsOf (addNode wS15 (some "star") 0 0).1.nodes).length = 15)
    ∧ ((addNode wS100 (some "planet_ice") 0 0).1.nodes = wS100.nodes ∧
        (addNode wS100 (some "planet_ice") 0 0).2 = some AddNodeError.bodyLimit) := by
  constructor
  · exact (c5_add_node_limits wS15 (some "star") 0 0).1 (by decide) (by decide)
  · exact (c5_add_node_limits wS100 (some "planet_ice") 0 0).2 1
      (by decide) (by decide) (by decide) (by decide)

/-! ### C3: atomic star deletion with reassignment -/

/-- Counting helper for C3: after filtering out the source star and
remapping its dependents, the bodies under the target are exactly the old
ones plus the reassigned dependents. -/
theorem reassign_count (source t : Nat) (hne : t ≠ source) :
    ∀ (nodes : List NodeItem),
      (∀ n ∈ nodes, n.parent_star_id = some source → ¬ isStarNode n) →
      (∀ n ∈ nodes, n.id = source → n.parent_star_id = none) →
      (((nodes.filter (fun n => n.id ≠ source)).map (fun n =>
          if n.parent_star_id = some source then { n with parent_star_id := some t } else n)).filter
        (fun n => n.parent_star_id = some t)).length
      = (nodes.filter (fun n => n.parent_star_id = some t)).length
        + (nodes.filter (fun n => n.parent_star_id = some source ∧ ¬ isStarNode n)).length := by
  intro nodes
  induction nodes with
  | nil => simp
  | cons n rest ih =>
    intro hdep hsrc
    have hdep' : ∀ m ∈ rest, m.parent_star_id = some source → ¬ isStarNode m :=
      fun m hm => hdep m (List.mem_cons_of_mem n hm)
    have hsrc' : ∀ m ∈ rest, m.id = source → m.parent_star_id = none :=
      fun m hm => hsrc m (List.mem_cons_of_mem n hm)
    have ihr := ih hdep' hsrc'
    simp only at ihr
    by_cases hid : n.id = source
    · have hpar : n.parent_star_id = none := hsrc n (List.mem_cons_self n rest) hid
      simp [hid, hpar]
      simp at ihr
      omega
    · by_cases hps : n.parent_star_id = some source
      · have hnstar : ¬ isStarNode n := hdep n (List.mem_cons_self n rest) hps
        simp [hid, hps, hnstar, Ne.symm hne]
        simp at ihr
        omega
      · by_cases hpt : n.parent_star_id = some t
        · simp [hid, hps, hpt, hne]
          simp at ihr
          omega
        · simp [hid, hps, hpt]
          simp at ihr
          omega

/-- C3: deleting a star with K dependent non-star bodies into a target star
with M existing bodies either fails entirely (state unchanged) when
M + K > 100, or succeeds atomically: the target then parents exactly M + K
bodies, no node with the source id or a parent reference to it remains,
and the lane list is exactly the old one with every lane incident to the
source removed.  Hypotheses: the target is distinct from the source, every
dependent of the source is a non-star, and the source star itself has no
parent (the editor's invariants). -/
theorem c3_reassign_delete (s : EditorState) (source t : Nat)
    (hne : t ≠ source)
    (hdep : ∀ n ∈ s.nodes, n.parent_star_id = some source → ¬ isStarNode n)
    (hsrc : ∀ n ∈ s.nodes, n.id = source → n.parent_star_id = none) :
    (100 < (s.nodes.filter (fun n => n.parent_star_id = some t)).length
        + (s.nodes.filter (fun n => n.parent_star_id = some source ∧ ¬ isStarNode n)).length →
      reassignAndDeleteStar s source (some t) = s)
    ∧ ((s.nodes.filter (fun n => n.parent_star_id = some t)).length
        + (s.nodes.filter (fun n => n.parent_star_id = some source ∧ ¬ isStarNode n)).length ≤ 100 →
      (((reassignAndDeleteStar s source (some t)).nodes.filter
          (fun n => n.parent_star_id = some t)).length
        = (s.nodes.filter (fun n => n.parent_star_id = some t)).length
          + (s.nodes.filter (fun n => n.parent_star_id = some source ∧ ¬ isStarNode n)).length)
      ∧ (∀ n ∈ (reassignAndDeleteStar s source (some t)).nodes,
          n.id ≠ source ∧ n.parent_star_id ≠ some source)
      ∧ (reassignAndDeleteStar s source (some t)).lanes
          = s.lanes.filter (fun l => l.node_a ≠ source ∧ l.node_b ≠ source)) := by
  constructor
  · intro hover
    simp only [reassignAndDeleteStar]
    split_ifs with h1
    · rfl
    · rfl
  · intro hle
    have hnodes : (reassignAndDeleteStar s source (some t)).nodes
        = (s.nodes.filter (fun n => n.id ≠ source)).map (fun n =>
            if n.parent_star_id = some source then { n with parent_star_id := some t } else n) := by
      simp only [reassignAndDeleteStar]
      split_ifs with h1 h2
      · exact absurd h1 hne
      · omega
      · rfl
    have hlanes : (reassignAndDeleteStar s source (some t)).lanes
        = s.lanes.filter (fun l => l.node_a ≠ source ∧ l.node_b ≠ source) := by
      simp only [reassignAndDeleteStar]
      split_ifs with h1 h2
      · exact absurd h1 hne
      · omega
      · rfl
    refine ⟨?_, ?_, hlanes⟩
    · rw [hnodes]
      exact reassign_count source t hne s.nodes hdep hsrc
    · intro n hn
      rw [hnodes] at hn
      rcases List.mem_map.mp hn with ⟨m, hm, hmn⟩
      have hmid : m.id ≠ source := by
        have := List.of_mem_filter hm
        simpa using this
      constructor
      · rw [← hmn]
        by_cases hps : m.parent_star_id = some source <;> simp [hps, hmid]
      · rw [← hmn]
        by_cases hps : m.parent_star_id = some source
        · simp only [if_pos hps]
          intro h
          have : t = source := by injection h
          exact hne this
        · simp only [if_neg hps]
          exact hps

/-- C3 witness: the theorem applied to a two-star scenario where star 1
carries one dependent body (node 2) and star 3 none: the deletion succeeds
and node 2 ends up under star 3. -/
theorem c3_witness :
    (((reassignAndDeleteStar wReState 1 (some 3)).nodes.filter
        (fun n => n.parent_star_id = some 3)).length = 1)
    ∧ ∀ n ∈ (reassignAndDeleteStar wReState 1 (some 3)).nodes,
        n.id ≠ 1 ∧ n.parent_star_id ≠ some 1 := by
  have h := (c3_reassign_delete wReState 1 3 (by decide) (by decide) (by decide)).2
    (by decide)
  refine ⟨?_, h.2.1⟩
  rw [h.1]
  decide

/-! ### Association-list (JS `Map`) lemmas -/

section AssocLemmas

variable {κ : Type} {α : Type} [DecidableEq κ]

theorem find?_map_update_self (k : κ) (v : α) :
    ∀ (m : List (κ × α)), (m.find? (fun p => p.1 = k)).isSome →
      (m.map (fun p => if p.1 = k then (k, v) else p)).find? (fun p => p.1 = k)
        = some (k, v) := by
  intro m
  induction m with
  | nil => simp
  | cons p rest ih =>
    intro hs
    by_cases hp : p.1 = k
    · simp [hp]
    · rw [List.map_cons, if_neg hp, List.find?_cons_of_neg _ (by simpa using hp)]
      apply ih
      rw [List.find?_cons_of_neg _ (by simpa using hp)] at hs
      exact hs

theorem find?_map_update_ne (k k' : κ) (v : α) (h : k' ≠ k) :
    ∀ (m : List (κ × α)),
      (m.map (fun p => if p.1 = k then (k, v) else p)).find? (fun p => p.1 = k')
        = m.find? (fun p => p.1 = k') := by
  intro m
  induction m with
  | nil => simp
  | cons p rest ih =>
    by_cases hp : p.1 = k
    · rw [List.map_cons, if_pos hp]
      rw [List.find?_cons_of_neg _ (by simpa using Ne.symm h)]
      rw [List.find?_cons_of_neg _
        (by simp only [hp, decide_eq_true_eq]; exact Ne.symm h)]
      exact ih
    · rw [List.map_cons, if_neg hp]
      by_cases hp' : p.1 = k'
      · rw [List.find?_cons_of_pos _ (by simpa using hp'),
            List.find?_cons_of_pos _ (by simpa using hp')]
      · rw [List.find?_cons_of_neg _ (by simpa using hp'),
            List.find?_cons_of_neg _ (by simpa using hp')]
        exact ih

theorem alistGet_set_self (m : List (κ × α)) (k : κ) (v : α) :
    alistGet (alistSet m k v) k = some v := by
  unfold alistGet alistSet
  by_cases hs : (m.find? (fun p => p.1 = k)).isSome
  · rw [if_pos hs, find?_map_update_self k v m hs]
    rfl
  · rw [if_neg hs, List.find?_append]
    rw [Option.not_isSome_iff_eq_none] at hs
    rw [hs]
    simp

theorem alistGet_set_ne (m : List (κ × α)) (k k' : κ) (v : α) (h : k' ≠ k) :
    alistGet (alistSet m k v) k' = alistGet m k' := by
  unfold alistGet alistSet
  by_cases hs : (m.find? (fun p => p.1 = k)).isSome
  · rw [if_pos hs, find?_map_update_ne k k' v h m]
  · rw [if_neg hs, List.find?_append]
    have : ([(k, v)].find? (fun p => p.1 = k')) = none := by simp [Ne.symm h]
    rw [this]
    simp

theorem alistHas_eq (m : List (κ × α)) (k : κ) :
    alistHas m k = (alistGet m k).isSome := by
  unfold alistHas alistGet
  cases m.find? (fun p => p.1 = k) <;> simp

theorem alistGetD_eq (m : List (κ × α)) (k : κ) (d : α) :
    alistGetD m k d = (alistGet m k).getD d := rfl

end AssocLemmas

/-! ### The `childrenByStar` grouping -/

/-- The initialization fold of `childrenByStar` maps every star id to the
empty list. -/
theorem childrenInit_get (stars : List NodeItem) (sid : Nat) :
    ∀ (m : List (Nat × List NodeItem)),
      alistGet (stars.foldl (fun m s => alistSet m s.id []) m) sid
        = if sid ∈ stars.map (fun s => s.id) then some [] else alistGet m sid := by
  induction stars with
  | nil => intro m; simp
  | cons s rest ih =>
    intro m
    rw [List.foldl_cons, ih]
    by_cases hmem : sid ∈ rest.map (fun s => s.id)
    · simp [hmem]
    · by_cases hsid : sid = s.id
      · simp [hmem, hsid, alistGet_set_self]
      · simp [hmem, hsid, alistGet_set_ne _ _ _ _ hsid]

/-- The body fold of `childrenByStar` appends, per key, exactly the bodies
whose parent is that key — keys absent from the map stay absent. -/
theorem childrenFold_get (sid : Nat) :
    ∀ (bs : List NodeItem) (m : List (Nat × List NodeItem)),
      alistGet (bs.foldl (fun m b =>
          match b.parent_star_id with
          | some sid' =>
            if alistHas m sid' then alistSet m sid' (alistGetD m sid' [] ++ [b]) else m
          | none => m) m) sid
        = match alistGet m sid with
          | some cur => some (cur ++ bs.filter (fun b => b.parent_star_id = some sid))
          | none => none := by
  intro bs
  induction bs with
  | nil =>
    intro m
    cases h : alistGet m sid <;> simp [h]
  | cons b rest ih =>
    intro m
    rcases hpar : b.parent_star_id with _ | sid'
    · simp only [List.foldl_cons, hpar]
      rw [ih]
      cases h : alistGet m sid <;> simp [h, hpar]
    · simp only [List.foldl_cons, hpar]
      by_cases hhas : alistHas m sid'
      · rw [if_pos hhas, ih]
        rw [alistHas_eq] at hhas
        by_cases hsid : sid = sid'
        · subst hsid
          rcases hcur : alistGet m sid with _ | cur
          · rw [hcur] at hhas; simp at hhas
          · rw [alistGet_set_self]
            simp [alistGetD_eq, hcur, List.filter_cons, hpar]
        · rw [alistGet_set_ne _ _ _ _ hsid]
          have hne : sid' ≠ sid := fun hh => hsid hh.symm
          cases h : alistGet m sid <;> simp [h, hne, hpar, List.filter_cons]
      · rw [if_neg hhas, ih]
        rw [alistHas_eq] at hhas
        by_cases hsid : sid = sid'
        · subst hsid
          rcases hcur : alistGet m sid with _ | cur
          · simp
          · rw [hcur] at hhas; simp at hhas
        · have hne : sid' ≠ sid := fun hh => hsid hh.symm
          cases h : alistGet m sid <;> simp [h, hne, hpar, List.filter_cons]

/-- `childrenByStar` groups exactly: looking up a star's id yields the
non-stars whose declared parent is that star. -/
theorem childrenByStar_get (stars nonStars : List NodeItem) (sid : Nat)
    (hs : sid ∈ stars.map (fun s => s.id)) :
    alistGet (childrenByStar stars nonStars) sid
      = some (nonStars.filter (fun b => b.parent_star_id = some sid)) := by
  unfold childrenByStar
  rw [childrenFold_get, childrenInit_get, if_pos hs]
  simp

/-! ### C10: silent omission of unparented bodies, full lane preservation -/

/-- C10: the export tree contains, under each star, exactly the non-stars
whose `parent_star_id` equals that star's id; a non-star whose parent id is
absent or not the id of any star appears nowhere in the tree; and
`phase_lanes` maps every lane with its original id and endpoints (type kept
only for wormholes) — including lanes whose endpoints reference omitted
nodes. -/
theorem c10_export_shape (nodes : List NodeItem) (lanes : List PhaseLane)
    (skybox : String) (hnd : (idsOf nodes).Nodup) :
    ((buildScenarioJSON nodes lanes skybox).root_nodes
      = (starsOf nodes).map (fun s =>
          { node := toGameNode (buildHomeMap (nonStarsOf nodes)) s
            child_nodes := ((nonStarsOf nodes).filter
                (fun b => b.parent_star_id = some s.id)).map
              (toGameNode (buildHomeMap (nonStarsOf nodes))) }))
    ∧ (∀ b ∈ nonStarsOf nodes,
        (b.parent_star_id = none ∨ ∀ st ∈ starsOf nodes, b.parent_star_id ≠ some st.id) →
        ∀ r ∈ (buildScenarioJSON nodes lanes skybox).root_nodes,
          r.node.id ≠ b.id ∧ ∀ c ∈ r.child_nodes, c.id ≠ b.id)
    ∧ (buildScenarioJSON nodes lanes skybox).phase_lanes
        = lanes.map (fun l =>
            { id := l.id, node_a := l.node_a, node_b := l.node_b
              type := if l.type = some LaneType.wormhole then some "wormhole" else none }) := by
  have hinj : ∀ x ∈ nodes, ∀ y ∈ nodes, x.id = y.id → x = y := by
    unfold idsOf at hnd
    exact List.inj_on_of_nodup_map hnd
  have hroot : (buildScenarioJSON nodes lanes skybox).root_nodes
      = (starsOf nodes).map (fun s =>
          { node := toGameNode (buildHomeMap (nonStarsOf nodes)) s
            child_nodes := ((nonStarsOf nodes).filter
                (fun b => b.parent_star_id = some s.id)).map
              (toGameNode (buildHomeMap (nonStarsOf nodes))) }) := by
    simp only [buildScenarioJSON]
    apply List.map_congr_left
    intro s hs
    rw [alistGetD_eq,
      childrenByStar_get (starsOf nodes) (nonStarsOf nodes) s.id
        (List.mem_map_of_mem _ hs)]
    rfl
  refine ⟨hroot, ?_, rfl⟩
  intro b hb hbad r hr
  rw [hroot] at hr
  rcases List.mem_map.mp hr with ⟨s, hs, hsr⟩
  have hbn : b ∈ nodes := List.mem_of_mem_filter hb
  have hsn : s ∈ nodes := List.mem_of_mem_filter hs
  have hbs : b ≠ s := by
    intro hh
    subst hh
    have h1 := List.of_mem_filter hb
    have h2 := List.of_mem_filter hs
    simp at h1 h2
    rw [h2] at h1
    simp at h1
  constructor
  · rw [← hsr]
    show s.id ≠ b.id
    intro hh
    exact hbs (hinj b hbn s hsn hh.symm)
  · intro c hc
    rw [← hsr] at hc
    simp only at hc
    rcases List.mem_map.mp hc with ⟨m, hm, hmc⟩
    have hmps : m.parent_star_id = some s.id := by
      have := List.of_mem_filter hm
      simpa using this
    have hmn : m ∈ nodes := List.mem_of_mem_filter (List.mem_of_mem_filter hm)
    rw [← hmc]
    show m.id ≠ b.id
    intro hh
    have hmb : m = b := hinj m hmn b hbn hh
    subst hmb
    rcases hbad with hnone | hnost
    · rw [hnone] at hmps
      exact Option.noConfusion hmps
    · exact hnost s hs hmps

/-- C10 witness: the theorem applied to a scenario with one star and one
orphaned (unparented) body: the body is absent from the tree while the lane
referencing it survives with its endpoints. -/
theorem c10_witness :
    (buildScenarioJSON [wStar1, wOrphan] [wLane12] "skybox_random").root_nodes
      = [{ node := toGameNode (buildHomeMap (nonStarsOf [wStar1, wOrphan])) wStar1
           child_nodes := [] }]
    ∧ (buildScenarioJSON [wStar1, wOrphan] [wLane12] "skybox_random").phase_lanes
      = [{ id := 1, node_a := 1, node_b := 2, type := none }] := by
  have h := c10_export_shape [wStar1, wOrphan] [wLane12] "skybox_random" (by decide)
  constructor
  · rw [h.1]
    decide
  · rw [h.2.2]
    decide

/-! ### C2: home-planet map and exported filling names -/

/-- The home-map fold, looked up at a nonnegative index: the accumulated
value wins, else the first node owned by that index. -/
theorem homeFold_lookup_nonneg (i : Int) (hi : 0 ≤ i) :
    ∀ (ns : List NodeItem) (m : List (Int × Nat)),
      alistGet (ns.foldl (fun m n =>
          match playerIndexOf n with
          | some idx => if 0 ≤ idx ∧ ¬ alistHas m idx then alistSet m idx n.id else m
          | none => m) m) i
        = match alistGet m i with
          | some v => some v
          | none => (ns.find? (fun x => playerIndexOf x == some i)).map (fun x => x.id) := by
  intro ns
  induction ns with
  | nil =>
    intro m
    cases h : alistGet m i <;> simp [h]
  | cons n rest ih =>
    intro m
    rcases hpi : playerIndexOf n with _ | idx
    · simp only [List.foldl_cons, hpi]
      rw [ih]
      cases h : alistGet m i <;> simp [h, hpi]
    · simp only [List.foldl_cons, hpi]
      by_cases hins : 0 ≤ idx ∧ ¬ alistHas m idx
      · rw [if_pos hins, ih]
        by_cases hii : i = idx
        · subst hii
          have hget : alistGet m i = none := by
            have h2 := hins.2
            rw [alistHas_eq] at h2
            cases hg : alistGet m i
            · rfl
            · rw [hg] at h2; simp at h2
          rw [alistGet_set_self, hget]
          rw [List.find?_cons_of_pos _ (by simp [hpi])]
          rfl
        · rw [alistGet_set_ne _ _ _ _ hii]
          rw [List.find?_cons_of_neg _ (by simp [hpi]; omega)]
      · rw [if_neg hins, ih]
        cases hg : alistGet m i with
        | some v => rfl
        | none =>
          rw [List.find?_cons_of_neg _ ?hpred]
          case hpred =>
            simp [hpi]
            intro hh
            subst hh
            rw [not_and_or] at hins
            rcases hins with h1 | h2
            · exact h1 hi
            · rw [not_not, alistHas_eq, hg] at h2
              simp at h2

/-- The home-map fold never creates negative keys. -/
theorem homeFold_lookup_neg (i : Int) (hi : i < 0) :
    ∀ (ns : List NodeItem) (m : List (Int × Nat)),
      alistGet m i = none →
      alistGet (ns.foldl (fun m n =>
          match playerIndexOf n with
          | some idx => if 0 ≤ idx ∧ ¬ alistHas m idx then alistSet m idx n.id else m
          | none => m) m) i = none := by
  intro ns
  induction ns with
  | nil => intro m h; exact h
  | cons n rest ih =>
    intro m h
    rcases hpi : playerIndexOf n with _ | idx
    · simp only [List.foldl_cons, hpi]
      exact ih m h
    · simp only [List.foldl_cons, hpi]
      by_cases hins : 0 ≤ idx ∧ ¬ alistHas m idx
      · rw [if_pos hins]
        apply ih
        rw [alistGet_set_ne _ _ _ _ (by omega : i ≠ idx)]
        exact h
      · rw [if_neg hins]
        exact ih m h

/-- `playerHomePlanetByIndex`, characterized: looking up a nonnegative
index yields the id of the first node owned by it; negative indices are
never present. -/
theorem buildHomeMap_lookup (ns : List NodeItem) (i : Int) :
    alistGet (buildHomeMap ns) i
      = if 0 ≤ i then
          (ns.find? (fun x => playerIndexOf x == some i)).map (fun x => x.id)
        else none := by
  unfold buildHomeMap
  by_cases hi : 0 ≤ i
  · rw [if_pos hi, homeFold_lookup_nonneg i hi]
    simp [alistGet]
  · rw [if_neg hi, homeFold_lookup_neg i (by omega)]
    simp [alistGet]

/-- C2: with unique node ids, the home-planet map holds, per nonnegative
player index, exactly the first-encountered non-star node owned by that
index, and every node's exported filling name is the fixed player-home
identifier when the node is that first-encountered owned non-star or
carries a (truthy) NPC faction name, else the static-table translation of
its body-type id (defaulting to the raw id). -/
theorem c2_home_filling (nodes : List NodeItem) (hnd : (idsOf nodes).Nodup) :
    (∀ i : Int, alistGet (buildHomeMap (nonStarsOf nodes)) i
        = if 0 ≤ i then
            ((nonStarsOf nodes).find? (fun m => playerIndexOf m == some i)).map
              (fun m => m.id)
          else none)
    ∧ ∀ n ∈ nodes,
        computedFilling (buildHomeMap (nonStarsOf nodes)) n
          = (if claimIsHome nodes n then "player_home_planet"
             else if npcNameTruthy n then "player_home_planet"
             else toGameFillingName n.filling_name) := by
  have hinj : ∀ x ∈ nodes, ∀ y ∈ nodes, x.id = y.id → x = y := by
    unfold idsOf at hnd
    exact List.inj_on_of_nodup_map hnd
  refine ⟨fun i => buildHomeMap_lookup _ i, ?_⟩
  intro n hn
  have hcond : (match playerIndexOf n with
      | some idx => alistGet (buildHomeMap (nonStarsOf nodes)) idx == some n.id
      | none => (false : Bool)) = claimIsHome nodes n := by
    unfold claimIsHome
    rcases hpi : playerIndexOf n with _ | i
    · rfl
    · show (alistGet (buildHomeMap (nonStarsOf nodes)) i == some n.id)
        = (decide (0 ≤ i) &&
            ((nonStarsOf nodes).find? (fun m => playerIndexOf m == some i) == some n))
      rw [buildHomeMap_lookup]
      by_cases hi : 0 ≤ i
      · rw [if_pos hi]
        cases hf : (nonStarsOf nodes).find? (fun m => playerIndexOf m == some i) with
        | none => simp [hi]
        | some m =>
          have hm : m ∈ nodes := List.mem_of_mem_filter (List.mem_of_find?_eq_some hf)
          by_cases hmn : m = n
          · subst hmn
            simp [hi]
          · have hid : m.id ≠ n.id := fun hh => hmn (hinj m hm n hn hh)
            have hnm : n ≠ m := fun hh => hmn hh.symm
            simp [hi, hid, hnm, hmn]
      · rw [if_neg hi]
        simp [hi]
  unfold computedFilling
  rw [hcond]

/-- C2 witness: in a scenario whose only owned non-star is the player-0
planet (node 2), that node exports the fixed player-home identifier. -/
theorem c2_witness :
    computedFilling (buildHomeMap (nonStarsOf [wStar1, wPlayerPlanet])) wPlayerPlanet
      = "player_home_planet" := by
  have h := (c2_home_filling [wStar1, wPlayerPlanet] (by decide)).2 wPlayerPlanet
    (by decide)
  rw [h]
  decide

/-! ### C9: scenario-name sanitization -/

theorem wordsAux_ws {c : Char} {rest : List Char} (hc : isJsSpace c = true) :
    wordsAux (c :: rest) = wordsAux rest := by
  rw [wordsAux.eq_def]
  simp [hc]

theorem wordsAux_single {c : Char} (hc : isJsSpace c = false) :
    wordsAux [c] = [[c]] := by
  rw [wordsAux.eq_def]
  simp [hc]

theorem wordsAux_nonws_ws {c d : Char} {r : List Char} (hc : isJsSpace c = false)
    (hd : isJsSpace d = true) :
    wordsAux (c :: d :: r) = [c] :: wordsAux (d :: r) := by
  conv_lhs => rw [wordsAux.eq_def]
  simp [hc, hd]

theorem wordsAux_nonws_nonws {c d : Char} {r : List Char} {w : List Char}
    {ws : List (List Char)} (hc : isJsSpace c = false) (hd : isJsSpace d = false)
    (hw : wordsAux (d :: r) = w :: ws) :
    wordsAux (c :: d :: r) = (c :: w) :: ws := by
  conv_lhs => rw [wordsAux.eq_def]
  simp only [hc, Bool.false_eq_true, if_false, hw]
  rw [if_neg (by simp [hd])]

theorem collapseAux_ws_true {c : Char} {rest : List Char} (hc : isJsSpace c = true) :
    collapseAux true (c :: rest) = collapseAux true rest := by
  simp [collapseAux, hc]

theorem collapseAux_ws_false {c : Char} {rest : List Char} (hc : isJsSpace c = true) :
    collapseAux false (c :: rest) = '_' :: collapseAux true rest := by
  simp [collapseAux, hc]

theorem collapseAux_nonws {b : Bool} {c : Char} {rest : List Char}
    (hc : isJsSpace c = false) :
    collapseAux b (c :: rest) = c :: collapseAux false rest := by
  cases b <;> simp [collapseAux, hc]

/-- Words survive when the list is nonempty and does not end in
whitespace. -/
theorem wordsAux_ne_nil : ∀ (l : List Char), l ≠ [] →
    (∀ c, l.getLast? = some c → isJsSpace c = false) →
    wordsAux l ≠ [] := by
  intro l
  induction l with
  | nil => intro h; exact absurd rfl h
  | cons x rest ih =>
    intro _ hlast
    cases hre : rest with
    | nil =>
      subst hre
      have hx : isJsSpace x = false := hlast x rfl
      rw [wordsAux_single hx]
      simp
    | cons y r =>
      subst hre
      by_cases hx : isJsSpace x
      · rw [wordsAux_ws (by simpa using hx)]
        apply ih (by simp)
        intro c hc
        exact hlast c (by rw [List.getLast?_cons_cons]; exact hc)
      · have hx' : isJsSpace x = false := by simpa using hx
        by_cases hy : isJsSpace y
        · rw [wordsAux_nonws_ws hx' (by simpa using hy)]
          simp
        · have hy' : isJsSpace y = false := by simpa using hy
          cases hw : wordsAux (y :: r) with
          | nil =>
            have hne := ih (by simp)
              (fun c hc => hlast c (by rw [List.getLast?_cons_cons]; exact hc))
            exact absurd hw hne
          | cons w ws =>
            rw [wordsAux_nonws_nonws hx' hy' hw]
            simp

/-- Pulling a leading character into the head word commutes with
joining. -/
theorem joinUnderscore_cons_head (c : Char) (w : List Char) (ws : List (List Char)) :
    joinUnderscore ((c :: w) :: ws) = c :: joinUnderscore (w :: ws) := by
  cases ws <;> simp [joinUnderscore]

/-- The whitespace-collapsing automaton computes the underscore-join of the
whitespace-separated words, on inputs that do not end in whitespace.  The
`true` flag means a whitespace run is in progress (its underscore already
emitted); with the `false` flag an input starting with whitespace gets a
leading underscore. -/
theorem collapseAux_eq_join : ∀ (l : List Char),
    (∀ c, l.getLast? = some c → isJsSpace c = false) →
    collapseAux true l = joinUnderscore (wordsAux l) ∧
    collapseAux false l
      = (match l.head? with
         | some c => if isJsSpace c then '_' :: joinUnderscore (wordsAux l)
                     else joinUnderscore (wordsAux l)
         | none => joinUnderscore (wordsAux l)) := by
  intro l
  induction l with
  | nil => intro _; exact ⟨rfl, rfl⟩
  | cons c rest ih =>
    intro hlast
    have hrest : ∀ x, rest.getLast? = some x → isJsSpace x = false := by
      cases rest with
      | nil => intro x hx; exact absurd hx (by simp)
      | cons y r => intro x hx; exact hlast x (by rw [List.getLast?_cons_cons]; exact hx)
    have ihr := ih hrest
    by_cases hcb : isJsSpace c
    · have hc : isJsSpace c = true := by simpa using hcb
      have hrne : rest ≠ [] := by
        intro h
        subst h
        have hx := hlast c rfl
        rw [hc] at hx
        exact Bool.noConfusion hx
      have hwords : wordsAux (c :: rest) = wordsAux rest := wordsAux_ws hc
      refine ⟨?_, ?_⟩
      · rw [collapseAux_ws_true hc, hwords, ihr.1]
      · rw [collapseAux_ws_false hc, hwords, ihr.1]
        simp only [List.head?_cons]
        rw [if_pos hcb]
    · have hc : isJsSpace c = false := by simpa using hcb
      have hkey : c :: collapseAux false rest = joinUnderscore (wordsAux (c :: rest)) := by
        cases hre : rest with
        | nil =>
          subst hre
          rw [wordsAux_single hc]
          simp [collapseAux, joinUnderscore]
        | cons d r =>
          subst hre
          by_cases hdb : isJsSpace d
          · have hd : isJsSpace d = true := by simpa using hdb
            have hwne : wordsAux (d :: r) ≠ [] := wordsAux_ne_nil _ (by simp) hrest
            have hfalse : collapseAux false (d :: r)
                = '_' :: joinUnderscore (wordsAux (d :: r)) := by
              rw [ihr.2]
              simp only [List.head?_cons]
              rw [if_pos hdb]
            rw [wordsAux_nonws_ws hc hd, hfalse]
            cases hw : wordsAux (d :: r) with
            | nil => exact absurd hw hwne
            | cons w ws => simp [joinUnderscore]
          · have hd : isJsSpace d = false := by simpa using hdb
            have hfalse : collapseAux false (d :: r)
                = joinUnderscore (wordsAux (d :: r)) := by
              rw [ihr.2]
              simp only [List.head?_cons]
              rw [if_neg hdb]
            have hwne : wordsAux (d :: r) ≠ [] := wordsAux_ne_nil _ (by simp) hrest
            cases hw : wordsAux (d :: r) with
            | nil => exact absurd hw hwne
            | cons w ws =>
              rw [wordsAux_nonws_nonws hc hd hw, joinUnderscore_cons_head, ← hw, hfalse]
      constructor
      · rw [collapseAux_nonws hc]
        exact hkey
      · rw [collapseAux_nonws hc]
        simp only [List.head?_cons]
        rw [if_neg hcb]
        exact hkey

/-- The head of `dropWhile` fails the predicate. -/
theorem head?_dropWhile_false {α : Type} (p : α → Bool) (l : List α) (c : α)
    (h : (l.dropWhile p).head? = some c) : p c = false := by
  have hx := List.head?_dropWhile_not p l
  rw [h] at hx
  exact hx

/-- `jsTrim` output does not end in whitespace. -/
theorem jsTrim_no_trailing (l : List Char) :
    ∀ c, (jsTrim l).getLast? = some c → isJsSpace c = false := by
  intro c hc
  unfold jsTrim at hc
  rw [List.getLast?_reverse] at hc
  exact head?_dropWhile_false _ _ _ hc

/-- `jsTrim` output does not start with whitespace. -/
theorem jsTrim_no_leading (l : List Char) :
    ∀ c, (jsTrim l).head? = some c → isJsSpace c = false := by
  intro c hc
  unfold jsTrim at hc
  obtain ⟨s, hs⟩ := List.dropWhile_suffix (l := (l.dropWhile isJsSpace).reverse) isJsSpace
  have hm : (l.dropWhile isJsSpace) =
      ((l.dropWhile isJsSpace).reverse.dropWhile isJsSpace).reverse ++ s.reverse := by
    have hrev := congrArg List.reverse hs
    simp [List.reverse_append] at hrev
    exact hrev.symm
  have hh : (l.dropWhile isJsSpace).head? = some c := by
    rw [hm, List.head?_append, hc]
    rfl
  exact head?_dropWhile_false _ _ _ hh

/-- C9: the scenario-name sanitizer equals, for every input string, the
spec's description: trim leading/trailing whitespace, collapse each
whitespace run into a single underscore (equivalently, join the
whitespace-separated words with underscores), strip every character outside
`[A-Za-z0-9_-]`, and fall back to the fixed placeholder `"Scenario"` when
nothing remains. -/
theorem c9_sanitize_name (name : String) : sanitizeName name = specSanitizeName name := by
  unfold sanitizeName specSanitizeName
  have hmain := collapseAux_eq_join (jsTrim name.data) (jsTrim_no_trailing name.data)
  have hfalse : collapseAux false (jsTrim name.data)
      = joinUnderscore (wordsAux (jsTrim name.data)) := by
    rw [hmain.2]
    cases hh : (jsTrim name.data).head? with
    | none => rfl
    | some c =>
      show (if isJsSpace c = true then _ else _) = _
      rw [jsTrim_no_leading name.data c hh]
      simp
  rw [hfalse]

/-! ### C1: the export gate -/

/-- An `Except` that reports ok holds a value. -/
theorem except_isOk_exists {e_ty a_ty : Type} (e : Except e_ty a_ty) (h : e.isOk = true) :
    ∃ a, e = Except.ok a := by
  cases e with
  | ok a => exact ⟨a, rfl⟩
  | error x => simp [Except.isOk, Except.toBool] at h

/-- C1 (amended): `exportZip` is refused — returning an error and hence no
archive at all — whenever any node's body-type id is unrecognized, the
warning list is non-empty, the trimmed display name is blank, or no team
count has been chosen.  Conversely it succeeds with a non-null archive when
the warning list is empty, the metadata is present, AND additionally every
body-type id is recognized and the loaded schema validators (if any)
accept the generated documents — the claim's converse omits the last two
conditions, see the counterexample. -/
theorem c1_export_gate (vS : Option (GalaxyChart → Bool))
    (vU : Option (ScenarioUniforms → Bool)) (png : Bool) (st : ProjectState) :
    (unknownIds st.nodes ≠ [] → (exportZip vS vU png st).isOk = false)
    ∧ (computeWarnings st.nodes st.lanes st.players ≠ [] →
        (exportZip vS vU png st).isOk = false)
    ∧ (strBlank st.displayName = true → (exportZip vS vU png st).isOk = false)
    ∧ (st.teamCount = none → (exportZip vS vU png st).isOk = false)
    ∧ (unknownIds st.nodes = [] →
       computeWarnings st.nodes st.lanes st.players = [] →
       ¬ strBlank st.displayName = true →
       ∀ tc : Int, st.teamCount = some tc →
       (∀ f, vS = some f → f (buildScenarioJSON st.nodes st.lanes st.skybox) = true) →
       (∀ f, vU = some f → f (buildScenarioUniformsObject (sanitizeName st.scenarioName)) = true) →
       ∃ a : ExportArchive, exportZip vS vU png st = Except.ok a) := by
  refine ⟨?_, ?_, ?_, ?_, ?_⟩
  · intro h
    simp [exportZip, h, Except.isOk, Except.toBool]
  · intro h
    unfold exportZip
    by_cases huk : unknownIds st.nodes = []
    · simp only [huk]
      rcases vS with _ | f <;> rcases vU with _ | g <;>
        rcases htc : st.teamCount with _ | tc <;>
          simp [htc, h, Except.isOk, Except.toBool] <;>
            (try split_ifs) <;> rfl
    · simp [huk, Except.isOk, Except.toBool]
  · intro h
    unfold exportZip
    by_cases huk : unknownIds st.nodes = []
    · simp only [huk]
      rcases vS with _ | f <;> rcases vU with _ | g <;>
        rcases htc : st.teamCount with _ | tc <;>
          simp [htc, h, Except.isOk, Except.toBool] <;>
            (try split_ifs) <;> rfl
    · simp [huk, Except.isOk, Except.toBool]
  · intro h
    unfold exportZip
    by_cases huk : unknownIds st.nodes = []
    · simp only [huk]
      rcases vS with _ | f <;> rcases vU with _ | g <;>
        simp [h, Except.isOk, Except.toBool] <;>
          (try split_ifs) <;> rfl
    · simp [huk, Except.isOk, Except.toBool]
  · intro huk hw hdn tc htc hvS hvU
    apply except_isOk_exists
    unfold exportZip
    rcases vS with _ | f <;> rcases vU with _ | g
    · simp [huk, htc, hw, hdn, Except.isOk, Except.toBool]
    · simp [huk, htc, hw, hdn, hvU g rfl, Except.isOk, Except.toBool]
    · simp [huk, htc, hw, hdn, hvS f rfl, Except.isOk, Except.toBool]
    · simp [huk, htc, hw, hdn, hvS f rfl, hvU g rfl, Except.isOk, Except.toBool]

/-- C1 counterexample: a state whose single body carries an unrecognized
body-type id but which produces zero warnings and has its display name and
team count set — the claim's converse promises success, yet the export is
refused. -/
theorem c1_counterexample :
    computeWarnings wStateMyst.nodes wStateMyst.lanes wStateMyst.players = []
    ∧ wStateMyst.teamCount = some 0
    ∧ strBlank wStateMyst.displayName = false
    ∧ (exportZip none none true wStateMyst).isOk = false := by
  refine ⟨by decide, rfl, by decide, by decide⟩

/-- C1 witness: the amended success conditions hold for the warning-free,
metadata-complete state, and export indeed returns ok. -/
theorem c1_witness : (exportZip none none true wStateOk).isOk = true := by
  obtain ⟨a, ha⟩ := (c1_export_gate none none true wStateOk).2.2.2.2 (by decide) (by decide)
    (by decide) 0 (by decide) (by intro f hf; simp at hf) (by intro f hf; simp at hf)
  rw [ha]
  rfl

/-! ### C4: reachability warnings — support lemmas -/

theorem foldr_concat_eq_nil_iff {a_ty b_ty : Type} (g : a_ty → List b_ty) :
    ∀ ns : List a_ty,
      ns.foldr (fun n acc => g n ++ acc) [] = [] ↔ ∀ n ∈ ns, g n = [] := by
  intro ns
  induction ns with
  | nil => simp
  | cons n rest ih => simp [ih]

theorem mem_foldr_concat {a_ty b_ty : Type} (g : a_ty → List b_ty) {m : a_ty}
    {msg : b_ty} (hmsg : msg ∈ g m) :
    ∀ ns : List a_ty, m ∈ ns → msg ∈ ns.foldr (fun n acc => g n ++ acc) [] := by
  intro ns
  induction ns with
  | nil => intro h; exact absurd h (List.not_mem_nil m)
  | cons n rest ih =>
    intro h
    rcases List.mem_cons.mp h with h | h
    · subst h
      exact List.mem_append_left _ hmsg
    · exact List.mem_append_right _ (ih h)

theorem foldr_concat_single {a_ty b_ty : Type} (g : a_ty → List b_ty) (m : a_ty)
    (msg : b_ty) :
    ∀ ns : List a_ty, ns.Nodup → m ∈ ns → (∀ n ∈ ns, n ≠ m → g n = []) →
      g m = [msg] →
      ns.foldr (fun n acc => g n ++ acc) [] = [msg] := by
  intro ns
  induction ns with
  | nil => intro _ h; exact absurd h (List.not_mem_nil m)
  | cons n rest ih =>
    intro hnd hm hz hgm
    rcases List.mem_cons.mp hm with h | h
    · subst h
      have hrest : rest.foldr (fun n acc => g n ++ acc) [] = [] := by
        rw [foldr_concat_eq_nil_iff]
        intro x hx
        have hxm : x ≠ m := by
          intro hh
          subst hh
          exact (List.nodup_cons.mp hnd).1 hx
        exact hz x (List.mem_cons_of_mem _ hx) hxm
      rw [List.foldr_cons, hrest, hgm]
      simp
    · have hnm : n ≠ m := by
        intro hh
        subst hh
        exact (List.nodup_cons.mp hnd).1 h
      rw [List.foldr_cons, hz n (List.mem_cons_self n rest) hnm]
      exact ih (List.nodup_cons.mp hnd).2 h
        (fun x hx => hz x (List.mem_cons_of_mem _ hx)) hgm

theorem nodup_length_le (l l' : List Nat) (hnd : l.Nodup) (hsub : l ⊆ l') :
    l.length ≤ l'.length := by
  classical
  calc l.length = l.toFinset.card := by rw [List.toFinset_card_of_nodup hnd]
  _ ≤ l'.toFinset.card := Finset.card_le_card (fun x hx => by
      rw [List.mem_toFinset] at hx ⊢
      exact hsub hx)
  _ ≤ l'.length := l'.toFinset_card_le

theorem alistGetD_ensure (adj : List (Nat × List Nat)) (k x : Nat) :
    alistGetD (if alistHas adj k then adj else alistSet adj k []) x []
      = alistGetD adj x [] := by
  by_cases h : alistHas adj k
  · rw [if_pos h]
  · rw [if_neg h]
    by_cases hx : x = k
    · subst hx
      rw [alistGetD_eq, alistGet_set_self]
      rw [alistHas_eq] at h
      rw [alistGetD_eq]
      cases hg : alistGet adj x
      · rfl
      · rw [hg] at h
        simp at h
    · rw [alistGetD_eq, alistGet_set_ne _ _ _ _ hx, alistGetD_eq]

theorem addEdge_getD (adj : List (Nat × List Nat)) (nodeIds : List Nat) (a b x : Nat)
    (hab : nodeIds.contains a ∧ nodeIds.contains b) :
    alistGetD (addEdge adj nodeIds a b) x []
      = alistGetD adj x [] ++ (if x = a then [b] else [])
        ++ (if x = b then [a] else []) := by
  unfold addEdge
  rw [if_pos hab]
  have e1 : ∀ y, alistGetD (if alistHas adj a then adj else alistSet adj a []) y []
      = alistGetD adj y [] := fun y => alistGetD_ensure adj a y
  set adj1 := if alistHas adj a then adj else alistSet adj a [] with hadj1
  have e2 : ∀ y, alistGetD (if alistHas adj1 b then adj1 else alistSet adj1 b []) y []
      = alistGetD adj1 y [] := fun y => alistGetD_ensure adj1 b y
  set adj2 := if alistHas adj1 b then adj1 else alistSet adj1 b [] with hadj2
  have e3 : ∀ y, alistGetD (alistSet adj2 a (alistGetD adj2 a [] ++ [b])) y []
      = alistGetD adj2 y [] ++ (if y = a then [b] else []) := by
    intro y
    by_cases hy : y = a
    · rw [if_pos hy, hy, alistGetD_eq, alistGet_set_self]
      rfl
    · rw [if_neg hy, alistGetD_eq, alistGet_set_ne _ _ _ _ hy, ← alistGetD_eq,
        List.append_nil]
  set adj3 := alistSet adj2 a (alistGetD adj2 a [] ++ [b]) with hadj3
  have e4 : ∀ y, alistGetD (alistSet adj3 b (alistGetD adj3 b [] ++ [a])) y []
      = alistGetD adj3 y [] ++ (if y = b then [a] else []) := by
    intro y
    by_cases hy : y = b
    · rw [if_pos hy, hy, alistGetD_eq, alistGet_set_self]
      rfl
    · rw [if_neg hy, alistGetD_eq, alistGet_set_ne _ _ _ _ hy, ← alistGetD_eq,
        List.append_nil]
  rw [e4, e3, e2, e1]

theorem mem_buildAdj_fold (nodeIds : List Nat) :
    ∀ (lanes : List PhaseLane) (adj : List (Nat × List Nat)) (a b : Nat),
      (b ∈ alistGetD
        (lanes.foldl (fun adj l => addEdge adj nodeIds l.node_a l.node_b) adj) a [])
      ↔ b ∈ alistGetD adj a [] ∨
          ∃ l ∈ lanes, (nodeIds.contains l.node_a ∧ nodeIds.contains l.node_b) ∧
            ((l.node_a = a ∧ l.node_b = b) ∨ (l.node_a = b ∧ l.node_b = a)) := by
  intro lanes
  induction lanes with
  | nil => intro adj a b; simp
  | cons l rest ih =>
    intro adj a b
    rw [List.foldl_cons, ih]
    by_cases hab : nodeIds.contains l.node_a ∧ nodeIds.contains l.node_b
    · rw [addEdge_getD adj nodeIds l.node_a l.node_b a hab]
      constructor
      · intro h
        rcases h with h | h
        · rcases List.mem_append.mp h with h2 | h2
          · rcases List.mem_append.mp h2 with h3 | h3
            · exact Or.inl h3
            · refine Or.inr ⟨l, List.mem_cons_self l rest, hab, Or.inl ⟨?_, ?_⟩⟩
              · by_cases hxa : a = l.node_a
                · exact hxa.symm
                · rw [if_neg hxa] at h3
                  exact absurd h3 (List.not_mem_nil b)
              · by_cases hxa : a = l.node_a
                · rw [if_pos hxa] at h3
                  have := List.mem_singleton.mp h3
                  exact this.symm
                · rw [if_neg hxa] at h3
                  exact absurd h3 (List.not_mem_nil b)
          · refine Or.inr ⟨l, List.mem_cons_self l rest, hab, Or.inr ⟨?_, ?_⟩⟩
            · by_cases hxb : a = l.node_b
              · rw [if_pos hxb] at h2
                have := List.mem_singleton.mp h2
                exact this.symm
              · rw [if_neg hxb] at h2
                exact absurd h2 (List.not_mem_nil b)
            · by_cases hxb : a = l.node_b
              · exact hxb.symm
              · rw [if_neg hxb] at h2
                exact absurd h2 (List.not_mem_nil b)
        · rcases h with ⟨l2, hl2, hc, hor⟩
          exact Or.inr ⟨l2, List.mem_cons_of_mem _ hl2, hc, hor⟩
      · intro h
        rcases h with h | ⟨l2, hl2, hc, hor⟩
        · exact Or.inl (List.mem_append_left _ (List.mem_append_left _ h))
        · rcases List.mem_cons.mp hl2 with hl2 | hl2
          · subst hl2
            rcases hor with ⟨h1, h2⟩ | ⟨h1, h2⟩
            · subst h1
              subst h2
              exact Or.inl (List.mem_append_left _
                (List.mem_append_right _ (by simp)))
            · subst h1
              subst h2
              exact Or.inl (List.mem_append_right _ (by simp))
          · exact Or.inr ⟨l2, hl2, hc, hor⟩
    · unfold addEdge
      rw [if_neg hab]
      constructor
      · intro h
        rcases h with h | ⟨l2, hl2, hc, hor⟩
        · exact Or.inl h
        · exact Or.inr ⟨l2, List.mem_cons_of_mem _ hl2, hc, hor⟩
      · intro h
        rcases h with h | ⟨l2, hl2, hc, hor⟩
        · exact Or.inl h
        · rcases List.mem_cons.mp hl2 with hl2 | hl2
          · subst hl2
            exact absurd hc hab
          · exact Or.inr ⟨l2, hl2, hc, hor⟩

/-- The adjacency built from lanes holds exactly the lane edges between
existing nodes. -/
theorem mem_buildAdj (nodes : List NodeItem) (lanes : List PhaseLane) (a b : Nat) :
    (b ∈ alistGetD (buildAdj nodes lanes) a []) ↔ adjRel nodes lanes a b := by
  unfold buildAdj adjRel
  rw [mem_buildAdj_fold]
  have hnil : alistGetD ([] : List (Nat × List Nat)) a [] = [] := rfl
  rw [hnil]
  simp only [List.not_mem_nil, false_or]
  constructor
  · rintro ⟨l, hl, ⟨hca, hcb⟩, hor⟩
    have hma : l.node_a ∈ idsOf nodes := by
      unfold idsOf
      simpa using hca
    have hmb : l.node_b ∈ idsOf nodes := by
      unfold idsOf
      simpa using hcb
    rcases hor with ⟨h1, h2⟩ | ⟨h1, h2⟩
    · subst h1; subst h2
      exact ⟨hma, hmb, l, hl, Or.inl ⟨rfl, rfl⟩⟩
    · subst h1; subst h2
      exact ⟨hmb, hma, l, hl, Or.inr ⟨rfl, rfl⟩⟩
  · rintro ⟨ha, hb, l, hl, hor⟩
    refine ⟨l, hl, ⟨?_, ?_⟩, ?_⟩
    · rcases hor with ⟨h1, h2⟩ | ⟨h1, h2⟩
      · subst h1; subst h2
        unfold idsOf at ha
        simpa using ha
      · subst h1; subst h2
        unfold idsOf at hb
        simpa using hb
    · rcases hor with ⟨h1, h2⟩ | ⟨h1, h2⟩
      · subst h1; subst h2
        unfold idsOf at hb
        simpa using hb
      · subst h1; subst h2
        unfold idsOf at ha
        simpa using ha
    · rcases hor with ⟨h1, h2⟩ | ⟨h1, h2⟩
      · subst h1; subst h2
        exact Or.inl ⟨rfl, rfl⟩
      · subst h1; subst h2
        exact Or.inr ⟨rfl, rfl⟩

theorem alistGetD_subset_flatten (adj : List (Nat × List Nat)) (a x : Nat)
    (hx : x ∈ alistGetD adj a []) : x ∈ (adj.map (fun p => p.2)).flatten := by
  unfold alistGetD alistGet at hx
  cases hf : adj.find? (fun p => p.1 = a) with
  | none =>
    rw [hf] at hx
    simp at hx
  | some pr =>
    rw [hf] at hx
    simp only [Option.map_some', Option.getD_some] at hx
    exact List.mem_flatten.mpr
      ⟨pr.2, List.mem_map.mpr ⟨pr, List.mem_of_find?_eq_some hf, rfl⟩, hx⟩

theorem bfs_fold_step (visited queue : List Nat) (n : Nat) (rest : List Nat) :
    (n :: rest).foldl
        (fun (p : List Nat × List Nat) nb =>
          if nb ∈ p.1 then p else (p.1 ++ [nb], p.2 ++ [nb]))
        (visited, queue)
      = rest.foldl
        (fun (p : List Nat × List Nat) nb =>
          if nb ∈ p.1 then p else (p.1 ++ [nb], p.2 ++ [nb]))
        (if n ∈ visited then (visited, queue) else (visited ++ [n], queue ++ [n])) :=
  rfl

theorem bfs_fold_spec :
    ∀ (ns visited queue : List Nat),
      ∃ new : List Nat,
        ns.foldl
            (fun (p : List Nat × List Nat) nb =>
              if nb ∈ p.1 then p else (p.1 ++ [nb], p.2 ++ [nb]))
            (visited, queue)
          = (visited ++ new, queue ++ new)
        ∧ new ⊆ ns ∧ (∀ x ∈ new, x ∉ visited) ∧ new.Nodup
        ∧ (∀ x ∈ ns, x ∈ visited ++ new) := by
  intro ns
  induction ns with
  | nil =>
    intro visited queue
    exact ⟨[], by simp, by simp, by simp, by simp, by simp⟩
  | cons n rest ih =>
    intro visited queue
    rw [bfs_fold_step]
    by_cases hn : n ∈ visited
    · rw [if_pos hn]
      obtain ⟨new, h1, h2, h3, h4, h5⟩ := ih visited queue
      refine ⟨new, h1, ?_, h3, h4, ?_⟩
      · intro x hx
        exact List.mem_cons_of_mem _ (h2 hx)
      · intro x hx
        rcases List.mem_cons.mp hx with hx | hx
        · subst hx
          exact List.mem_append_left _ hn
        · exact h5 x hx
    · rw [if_neg hn]
      obtain ⟨new, h1, h2, h3, h4, h5⟩ := ih (visited ++ [n]) (queue ++ [n])
      refine ⟨n :: new, ?_, ?_, ?_, ?_, ?_⟩
      · rw [h1]
        simp
      · intro x hx
        rcases List.mem_cons.mp hx with hx | hx
        · subst hx
          exact List.mem_cons_self _ _
        · exact List.mem_cons_of_mem _ (h2 hx)
      · intro x hx
        rcases List.mem_cons.mp hx with hx | hx
        · subst hx
          exact hn
        · intro hxv
          exact h3 x hx (List.mem_append_left _ hxv)
      · rw [List.nodup_cons]
        refine ⟨?_, h4⟩
        intro hmem
        exact h3 n hmem (List.mem_append_right _ (List.mem_singleton.mpr rfl))
      · intro x hx
        rcases List.mem_cons.mp hx with hx | hx
        · subst hx
          exact List.mem_append_right _ (List.mem_cons_self _ _)
        · have hx5 := h5 x hx
          simpa [List.append_assoc] using hx5

theorem bfsAux_spec (adj : List (Nat × List Nat)) (start : Nat) :
    ∀ (fuel : Nat) (queue visited : List Nat),
      visited.Nodup →
      queue ⊆ visited →
      visited ⊆ start :: (adj.map (fun p => p.2)).flatten →
      (∀ x ∈ visited, Relation.ReflTransGen (stepRel adj) start x) →
      (∀ x ∈ visited, x ∉ queue → ∀ y ∈ alistGetD adj x [], y ∈ visited) →
      queue.length + ((adj.map (fun p => p.2)).flatten.length + 1 - visited.length)
        ≤ fuel →
      visited ⊆ bfsAux adj fuel queue visited
      ∧ (∀ x ∈ bfsAux adj fuel queue visited, ∀ y ∈ alistGetD adj x [],
          y ∈ bfsAux adj fuel queue visited)
      ∧ (∀ x ∈ bfsAux adj fuel queue visited,
          Relation.ReflTransGen (stepRel adj) start x) := by
  intro fuel
  induction fuel with
  | zero =>
    intro queue visited hnd hqv hsubL hsound hclosed hfuel
    have hq : queue = [] := List.eq_nil_of_length_eq_zero (by omega)
    subst hq
    refine ⟨fun x hx => hx, ?_, ?_⟩
    · intro x hx y hy
      exact hclosed x hx (List.not_mem_nil x) y hy
    · intro x hx
      exact hsound x hx
  | succ fuel ih =>
    intro queue visited hnd hqv hsubL hsound hclosed hfuel
    cases queue with
    | nil =>
      refine ⟨fun x hx => hx, ?_, ?_⟩
      · intro x hx y hy
        exact hclosed x hx (List.not_mem_nil x) y hy
      · intro x hx
        exact hsound x hx
    | cons cur rest =>
      obtain ⟨new, hfold, hsubns, hnotv, hndnew, hcover⟩ :=
        bfs_fold_spec (alistGetD adj cur []) visited rest
      have hcurv : cur ∈ visited := hqv (List.mem_cons_self cur rest)
      have hrec : bfsAux adj (fuel + 1) (cur :: rest) visited
          = bfsAux adj fuel (rest ++ new) (visited ++ new) := by
        calc bfsAux adj (fuel + 1) (cur :: rest) visited
            = bfsAux adj fuel
                ((alistGetD adj cur []).foldl
                  (fun (p : List Nat × List Nat) nb =>
                    if nb ∈ p.1 then p else (p.1 ++ [nb], p.2 ++ [nb]))
                  (visited, rest)).2
                ((alistGetD adj cur []).foldl
                  (fun (p : List Nat × List Nat) nb =>
                    if nb ∈ p.1 then p else (p.1 ++ [nb], p.2 ++ [nb]))
                  (visited, rest)).1 := rfl
        _ = bfsAux adj fuel (rest ++ new) (visited ++ new) := by rw [hfold]
      have hnd' : (visited ++ new).Nodup := by
        refine List.Nodup.append hnd hndnew ?_
        intro a hav han
        exact hnotv a han hav
      have hqv' : rest ++ new ⊆ visited ++ new := by
        intro x hx
        rcases List.mem_append.mp hx with hx | hx
        · exact List.mem_append_left _ (hqv (List.mem_cons_of_mem _ hx))
        · exact List.mem_append_right _ hx
      have hsubL' : visited ++ new ⊆ start :: (adj.map (fun p => p.2)).flatten := by
        intro x hx
        rcases List.mem_append.mp hx with hx | hx
        · exact hsubL hx
        · exact List.mem_cons_of_mem _ (alistGetD_subset_flatten adj cur x (hsubns hx))
      have hsound' : ∀ x ∈ visited ++ new,
          Relation.ReflTransGen (stepRel adj) start x := by
        intro x hx
        rcases List.mem_append.mp hx with hx | hx
        · exact hsound x hx
        · exact Relation.ReflTransGen.tail (hsound cur hcurv) (hsubns hx)
      have hclosed' : ∀ x ∈ visited ++ new, x ∉ rest ++ new →
          ∀ y ∈ alistGetD adj x [], y ∈ visited ++ new := by
        intro x hx hxq y hy
        rcases List.mem_append.mp hx with hx | hx
        · by_cases hxc : x = cur
          · subst hxc
            exact hcover y hy
          · have hxrest : x ∉ cur :: rest := by
              intro hmem
              rcases List.mem_cons.mp hmem with hmem | hmem
              · exact hxc hmem
              · exact hxq (List.mem_append_left _ hmem)
            exact List.mem_append_left _ (hclosed x hx hxrest y hy)
        · exact absurd (List.mem_append_right _ hx) hxq
      have hlenv : (visited ++ new).length
          ≤ (start :: (adj.map (fun p => p.2)).flatten).length :=
        nodup_length_le _ _ hnd' hsubL'
      have hfuel' : (rest ++ new).length
          + ((adj.map (fun p => p.2)).flatten.length + 1 - (visited ++ new).length)
          ≤ fuel := by
        simp only [List.length_append, List.length_cons] at hlenv hfuel ⊢
        omega
      obtain ⟨ih1, ih2, ih3⟩ :=
        ih (rest ++ new) (visited ++ new) hnd' hqv' hsubL' hsound' hclosed' hfuel'
      rw [hrec]
      refine ⟨?_, ih2, ih3⟩
      intro x hx
      exact ih1 (List.mem_append_left _ hx)

theorem bfsReach_iff (adj : List (Nat × List Nat)) (start x : Nat) :
    x ∈ bfsReach adj start ↔ Relation.ReflTransGen (stepRel adj) start x := by
  have hflat : (adj.map (fun p => p.2)).flatten.length = totalAdjLen adj := by
    simp [totalAdjLen, List.length_flatten, List.map_map, Function.comp_def]
  obtain ⟨h1, h2, h3⟩ := bfsAux_spec adj start (totalAdjLen adj + 2) [start] [start]
    (by simp)
    (fun y hy => hy)
    (by
      intro y hy
      rcases List.mem_singleton.mp hy with rfl
      exact List.mem_cons_self _ _)
    (by
      intro y hy
      rcases List.mem_singleton.mp hy with rfl
      exact Relation.ReflTransGen.refl)
    (by
      intro y hy hyq
      exact absurd hy hyq)
    (by
      rw [hflat]
      simp only [List.length_cons, List.length_nil]
      omega)
  constructor
  · intro hx
    exact h3 x hx
  · intro hrtg
    unfold bfsReach
    induction hrtg with
    | refl => exact h1 (List.mem_singleton.mpr rfl)
    | tail hab hbc ihab => exact h2 _ ihab _ hbc

theorem rtg_step_iff_laneReachable (nodes : List NodeItem) (lanes : List PhaseLane)
    (a b : Nat) :
    Relation.ReflTransGen (stepRel (buildAdj nodes lanes)) a b
      ↔ laneReachable nodes lanes a b := by
  unfold laneReachable
  constructor
  · intro h
    exact Relation.ReflTransGen.mono
      (fun x y hxy => (mem_buildAdj nodes lanes x y).mp hxy) h
  · intro h
    exact Relation.ReflTransGen.mono
      (fun x y hxy => (mem_buildAdj nodes lanes x y).mpr hxy) h

theorem bfsContains_iff (nodes : List NodeItem) (lanes : List PhaseLane) (p x : Nat) :
    ((bfsReach (buildAdj nodes lanes) p).contains x = true)
      ↔ laneReachable nodes lanes p x := by
  constructor
  · intro h
    have hx : x ∈ bfsReach (buildAdj nodes lanes) p := by simpa using h
    exact (rtg_step_iff_laneReachable nodes lanes p x).mp
      ((bfsReach_iff (buildAdj nodes lanes) p x).mp hx)
  · intro h
    have hx : x ∈ bfsReach (buildAdj nodes lanes) p :=
      (bfsReach_iff (buildAdj nodes lanes) p x).mpr
        ((rtg_step_iff_laneReachable nodes lanes p x).mpr h)
    simpa using hx

theorem rtg_avoid_leaf (nodes : List NodeItem) (lanes : List PhaseLane)
    (l0 : PhaseLane) (mid other : Nat)
    (htouch : l0.node_a = mid ∨ l0.node_b = mid)
    (hother : other = if l0.node_a = mid then l0.node_b else l0.node_a)
    (huniq : ∀ l ∈ lanes, (l.id = l0.id ∨ l.node_a = mid ∨ l.node_b = mid) → l = l0)
    (a : Nat) (ha : a ≠ mid) :
    ∀ y, Relation.ReflTransGen (adjRel nodes lanes) a y →
      (y ≠ mid →
        Relation.ReflTransGen
          (adjRel nodes (lanes.filter (fun l => l.id ≠ l0.id))) a y)
      ∧ (y = mid →
        Relation.ReflTransGen
          (adjRel nodes (lanes.filter (fun l => l.id ≠ l0.id))) a other) := by
  intro y h
  induction h with
  | refl =>
    exact ⟨fun _ => Relation.ReflTransGen.refl, fun hy => absurd hy ha⟩
  | @tail b c hab hbc ih =>
    obtain ⟨hia, him⟩ := ih
    obtain ⟨hbmem, hcmem, l, hl, hor⟩ := hbc
    constructor
    · intro hc
      by_cases hbmid : b = mid
      · have hll : l = l0 := by
          apply huniq l hl
          right
          rcases hor with ⟨h1, h2⟩ | ⟨h1, h2⟩
          · exact Or.inl (h1.trans hbmid)
          · exact Or.inr (h2.trans hbmid)
        subst hll
        have hc_other : c = other := by
          by_cases hta : l.node_a = mid
          · rw [hother, if_pos hta]
            rcases hor with ⟨h1, h2⟩ | ⟨h1, h2⟩
            · exact h2.symm
            · exact absurd (h1.symm.trans hta) hc
          · have htb : l.node_b = mid := htouch.resolve_left hta
            rw [hother, if_neg hta]
            rcases hor with ⟨h1, h2⟩ | ⟨h1, h2⟩
            · exact absurd (h2.symm.trans htb) hc
            · exact h1.symm
        rw [hc_other]
        exact him hbmid
      · have hlid : l.id ≠ l0.id := by
          intro hid
          have hll : l = l0 := huniq l hl (Or.inl hid)
          subst hll
          rcases htouch with hta | htb
          · rcases hor with ⟨h1, h2⟩ | ⟨h1, h2⟩
            · exact hbmid (h1.symm.trans hta)
            · exact hc (h1.symm.trans hta)
          · rcases hor with ⟨h1, h2⟩ | ⟨h1, h2⟩
            · exact hc (h2.symm.trans htb)
            · exact hbmid (h2.symm.trans htb)
        refine Relation.ReflTransGen.tail (hia hbmid) ?_
        refine ⟨hbmem, hcmem, l, ?_, hor⟩
        exact List.mem_filter.mpr ⟨hl, by simp [hlid]⟩
    · intro hc
      have hll : l = l0 := by
        apply huniq l hl
        right
        rcases hor with ⟨h1, h2⟩ | ⟨h1, h2⟩
        · exact Or.inr (h2.trans hc)
        · exact Or.inl (h1.trans hc)
      subst hll
      by_cases hbmid : b = mid
      · exact him hbmid
      · have hb_other : b = other := by
          by_cases hta : l.node_a = mid
          · rw [hother, if_pos hta]
            rcases hor with ⟨h1, h2⟩ | ⟨h1, h2⟩
            · exact absurd (h1.symm.trans hta) hbmid
            · exact h2.symm
          · have htb : l.node_b = mid := htouch.resolve_left hta
            rw [hother, if_neg hta]
            rcases hor with ⟨h1, h2⟩ | ⟨h1, h2⟩
            · exact h1.symm
            · exact absurd (h2.symm.trans htb) hbmid
        rw [← hb_other]
        exact hia hbmid

theorem star_nonstar_id_ne (nodes : List NodeItem) (hnd : (idsOf nodes).Nodup)
    (p : Nat) (hp : p ∈ starIdsOf nodes) (n : NodeItem) (hn : n ∈ nonStarsOf nodes) :
    p ≠ n.id := by
  intro hpe
  unfold starIdsOf at hp
  unfold nonStarsOf at hn
  obtain ⟨s, hsf, hsid⟩ := List.mem_map.mp hp
  obtain ⟨hs_mem, hs_star⟩ := List.mem_filter.mp hsf
  obtain ⟨hn_mem, hn_star⟩ := List.mem_filter.mp hn
  have hsn : s = n := List.inj_on_of_nodup_map hnd hs_mem hn_mem (hsid.trans hpe)
  rw [hsn] at hs_star
  simp [hs_star] at hn_star

theorem reachability_pos (nodes : List NodeItem) (lanes : List PhaseLane)
    (hg : 0 < lanes.length ∧ 0 < (starIdsOf nodes).length) :
    reachabilityWarnings nodes lanes
      = (nonStarsOf nodes).foldr
          (fun n acc => reachCheck (starIdsOf nodes) (buildAdj nodes lanes) n ++ acc)
          [] := by
  simp only [reachabilityWarnings]
  rw [if_pos hg]

theorem reachability_neg (nodes : List NodeItem) (lanes : List PhaseLane)
    (hg : ¬(0 < lanes.length ∧ 0 < (starIdsOf nodes).length)) :
    reachabilityWarnings nodes lanes = [] := by
  simp only [reachabilityWarnings]
  rw [if_neg hg]

/-- C4: the reachability check of the warning engine. (A) With zero lanes or
zero stars it is skipped outright. (B) When it runs, a map on which every
non-star node with a JS-truthy declared parent has that parent among the
star ids and lane-reachable yields no reachability warnings, and (C) a
non-star node whose declared parent is missing from the star ids or cannot
reach it in the lane graph contributes its warning message. (D) Amended
removal property: deleting the single lane connecting a leaf node — when at
least one other lane remains — turns a previously warning-free map into one
whose reachability warnings are exactly that node's single message. (The
original claim's removal sentence, stated without the remaining-lane
proviso, is refuted by `c4_counterexample`.) -/
theorem c4_reachability (nodes : List NodeItem) (lanes : List PhaseLane) :
    ((lanes = [] ∨ starIdsOf nodes = []) → reachabilityWarnings nodes lanes = [])
    ∧ (lanes ≠ [] → starIdsOf nodes ≠ [] →
        (∀ n ∈ nonStarsOf nodes, ∀ q, n.parent_star_id = some q → q ≠ 0 →
          q ∈ starIdsOf nodes ∧ laneReachable nodes lanes q n.id) →
        reachabilityWarnings nodes lanes = [])
    ∧ (lanes ≠ [] → starIdsOf nodes ≠ [] →
        ∀ n ∈ nonStarsOf nodes, ∀ q, n.parent_star_id = some q → q ≠ 0 →
        (q ∉ starIdsOf nodes ∨ ¬ laneReachable nodes lanes q n.id) →
        reachMsg n q ∈ reachabilityWarnings nodes lanes)
    ∧ (∀ (m : NodeItem) (p : Nat) (l0 : PhaseLane),
        (idsOf nodes).Nodup →
        m ∈ nodes → isStarNode m = false →
        m.parent_star_id = some p → p ≠ 0 → p ∈ starIdsOf nodes →
        l0 ∈ lanes →
        (∀ l ∈ lanes, (l.id = l0.id ∨ l.node_a = m.id ∨ l.node_b = m.id) → l = l0) →
        (l0.node_a = m.id ∨ l0.node_b = m.id) →
        reachabilityWarnings nodes lanes = [] →
        lanes.filter (fun l => l.id ≠ l0.id) ≠ [] →
        reachabilityWarnings nodes (lanes.filter (fun l => l.id ≠ l0.id))
          = [reachMsg m p]) := by
  refine ⟨?_, ?_, ?_, ?_⟩
  · intro h
    have hg : ¬(0 < lanes.length ∧ 0 < (starIdsOf nodes).length) := by
      rcases h with h | h <;> rw [h] <;> simp
    exact reachability_neg nodes lanes hg
  · intro hl hs hall
    have hg : 0 < lanes.length ∧ 0 < (starIdsOf nodes).length :=
      ⟨List.length_pos.mpr hl, List.length_pos.mpr hs⟩
    rw [reachability_pos nodes lanes hg, foldr_concat_eq_nil_iff]
    intro n hn
    cases hq : n.parent_star_id with
    | none => simp [reachCheck, hq]
    | some q =>
      by_cases hq0 : q = 0
      · simp [reachCheck, hq, hq0]
      · obtain ⟨hmem, hreach⟩ := hall n hn q hq hq0
        have hbfsmem : n.id ∈ bfsReach (buildAdj nodes lanes) q := by
          simpa using (bfsContains_iff nodes lanes q n.id).mpr hreach
        simp [reachCheck, hq, hq0, hmem, hbfsmem]
  · intro hl hs n hn q hq hq0 hbad
    have hg : 0 < lanes.length ∧ 0 < (starIdsOf nodes).length :=
      ⟨List.length_pos.mpr hl, List.length_pos.mpr hs⟩
    rw [reachability_pos nodes lanes hg]
    have hmsg : reachMsg n q ∈ reachCheck (starIdsOf nodes) (buildAdj nodes lanes) n := by
      rcases hbad with hbad | hbad
      · simp [reachCheck, hq, hq0, hbad]
      · have hbfsnot : n.id ∉ bfsReach (buildAdj nodes lanes) q := by
          intro hmm
          exact hbad ((bfsContains_iff nodes lanes q n.id).mp (by simpa using hmm))
        simp [reachCheck, hq, hq0, hbfsnot]
    exact mem_foldr_concat _ hmsg _ hn
  · intro m p l0 hnd hm hmns hpar hp0 hps hl0 huniq htouch hbefore hne
    have hglanes : lanes ≠ [] := List.ne_nil_of_mem hl0
    have hsne : starIdsOf nodes ≠ [] := List.ne_nil_of_mem hps
    have hgB : 0 < lanes.length ∧ 0 < (starIdsOf nodes).length :=
      ⟨List.length_pos.mpr hglanes, List.length_pos.mpr hsne⟩
    have hgA : 0 < (lanes.filter (fun l => l.id ≠ l0.id)).length
        ∧ 0 < (starIdsOf nodes).length :=
      ⟨List.length_pos.mpr hne, List.length_pos.mpr hsne⟩
    rw [reachability_pos nodes lanes hgB, foldr_concat_eq_nil_iff] at hbefore
    have hnodes_nd : nodes.Nodup := hnd.of_map _
    have hns_nd : (nonStarsOf nodes).Nodup := hnodes_nd.filter _
    have hm_ns : m ∈ nonStarsOf nodes := List.mem_filter.mpr ⟨hm, by simp [hmns]⟩
    set other := if l0.node_a = m.id then l0.node_b else l0.node_a with hother
    rw [reachability_pos nodes _ hgA]
    apply foldr_concat_single _ m (reachMsg m p) _ hns_nd hm_ns
    · intro n hn hnm
      cases hq : n.parent_star_id with
      | none => simp [reachCheck, hq]
      | some q =>
        by_cases hq0 : q = 0
        · simp [reachCheck, hq, hq0]
        · by_cases hcont : q ∈ starIdsOf nodes
          · by_cases hbfsm : n.id ∈ bfsReach (buildAdj nodes lanes) q
            · have hreach : laneReachable nodes lanes q n.id :=
                (bfsContains_iff nodes lanes q n.id).mp (by simpa using hbfsm)
              have hqne : q ≠ m.id := star_nonstar_id_ne nodes hnd q hcont m hm_ns
              have hnne : n.id ≠ m.id := by
                intro hh
                exact hnm (List.inj_on_of_nodup_map hnd
                  (List.mem_filter.mp hn).1 hm hh)
              have hre' := (rtg_avoid_leaf nodes lanes l0 m.id other htouch hother
                huniq q hqne n.id hreach).1 hnne
              have hbfsm' :
                  n.id ∈ bfsReach (buildAdj nodes (lanes.filter
                    (fun l => l.id ≠ l0.id))) q := by
                simpa using (bfsContains_iff nodes _ q n.id).mpr hre'
              simp only [ne_eq, decide_not] at hbfsm'
              simp [reachCheck, hq, hq0, hcont, hbfsm']
            · exfalso
              have hbn := hbefore n hn
              simp [reachCheck, hq, hq0, hcont, hbfsm] at hbn
          · exfalso
            have hbn := hbefore n hn
            simp [reachCheck, hq, hq0, hcont] at hbn
    · have hpne : p ≠ m.id := star_nonstar_id_ne nodes hnd p hps m hm_ns
      by_cases hbfsm : m.id ∈ bfsReach (buildAdj nodes
          (lanes.filter (fun l => l.id ≠ l0.id))) p
      · exfalso
        have hre : laneReachable nodes (lanes.filter (fun l => l.id ≠ l0.id)) p m.id :=
          (bfsContains_iff nodes _ p m.id).mp (by simpa using hbfsm)
        rcases Relation.ReflTransGen.cases_tail hre with heq | ⟨c, hc, hcy⟩
        · exact hpne heq.symm
        · obtain ⟨hcmem, hmmem, l, hl, horr⟩ := hcy
          have hlf := List.mem_filter.mp hl
          have hll : l = l0 := by
            apply huniq l hlf.1
            right
            rcases horr with ⟨h1, h2⟩ | ⟨h1, h2⟩
            · exact Or.inr h2
            · exact Or.inl h1
          have hlne : l.id ≠ l0.id := by simpa using hlf.2
          exact hlne (by rw [hll])
      · simp only [ne_eq, decide_not] at hbfsm
        simp [reachCheck, hpar, hp0, hps, hbfsm]

/-- C4 counterexample: in the two-node map (star 1, planet 2 with declared
parent star 1) joined by the single lane with id 1, the engine reports zero
reachability warnings; lane 1 is planet 2's single connecting lane, yet
after removing it the check is skipped (zero lanes remain) and the warning
list is again empty — not the exactly-one warning the claim promises. -/
theorem c4_counterexample :
    reachabilityWarnings [wStar1, wOkPlanet] [wLane12] = []
    ∧ (∀ l ∈ [wLane12],
        (l.node_a = wOkPlanet.id ∨ l.node_b = wOkPlanet.id) → l.id = wLane12.id)
    ∧ reachabilityWarnings [wStar1, wOkPlanet]
        ([wLane12].filter (fun l => l.id ≠ wLane12.id)) = [] := by
  decide

/-- Witness for the C4 theorem at a concrete map: star 1 with two leaf
planets 2 and 3; removing planet 3's single lane (lane id 2) leaves lane 1
in place and produces exactly the one warning for planet 3. -/
theorem c4_witness :
    reachabilityWarnings [wStar1, wOkPlanet, wPlanet3]
        ([wLane12, wLane13].filter (fun l => l.id ≠ wLane13.id))
      = [reachMsg wPlanet3 1] :=
  (c4_reachability [wStar1, wOkPlanet, wPlanet3] [wLane12, wLane13]).2.2.2
    wPlanet3 1 wLane13 (by decide) (by decide) (by decide) rfl (by decide)
    (by decide) (by decide) (by decide) (by decide) (by decide) (by decide)

/-! ### C6: frozen initial category — invariant machinery -/

theorem findNode_mem (nodes : List NodeItem) (i : Nat) (sel : NodeItem)
    (h : findNode nodes i = some sel) : sel ∈ nodes ∧ sel.id = i := by
  unfold findNode at h
  refine ⟨List.mem_of_find?_eq_some h, ?_⟩
  have h2 := List.find?_some h
  simpa using h2

theorem node_eq_of_id (nodes : List NodeItem) (hnd : (idsOf nodes).Nodup)
    {a b : NodeItem} (ha : a ∈ nodes) (hb : b ∈ nodes) (h : a.id = b.id) : a = b :=
  List.inj_on_of_nodup_map hnd ha hb h

theorem idsOf_map_of_id (nodes : List NodeItem) (f : NodeItem → NodeItem)
    (hid : ∀ n, (f n).id = n.id) : idsOf (nodes.map f) = idsOf nodes := by
  unfold idsOf
  rw [List.map_map]
  exact List.map_congr_left (fun n _ => hid n)

theorem tracked_refl (s : EditorState) (hg : GoodState s) : Tracked s s :=
  ⟨hg, le_refl _, fun n' h _ => ⟨n', h, rfl, rfl⟩⟩

theorem tracked_trans (s s1 s2 : EditorState) (h1 : Tracked s s1) (h2 : Tracked s1 s2) :
    Tracked s s2 := by
  obtain ⟨g1, le1, t1⟩ := h1
  obtain ⟨g2, le2, t2⟩ := h2
  refine ⟨g2, le_trans le1 le2, ?_⟩
  intro n' hmem hlt
  obtain ⟨m, hm, hmid, hmcat⟩ := t2 n' hmem (lt_of_lt_of_le hlt le1)
  obtain ⟨n, hn, hnid, hncat⟩ := t1 m hm (by rw [hmid]; exact hlt)
  exact ⟨n, hn, hnid.trans hmid, hmcat.trans hncat⟩

theorem tracked_keep (s s' : EditorState) (hg : GoodState s)
    (hn : s'.nodes = s.nodes) (hnext : s.nextNodeId ≤ s'.nextNodeId) : Tracked s s' := by
  refine ⟨⟨?_, ?_, ?_, ?_⟩, hnext, ?_⟩
  · rw [hn]
    exact hg.nodup
  · intro n hmem
    rw [hn] at hmem
    exact lt_of_lt_of_le (hg.idsLt n hmem) hnext
  · intro n hmem hc
    rw [hn] at hmem
    exact hg.starCat n hmem hc
  · intro n hmem hc
    rw [hn] at hmem
    exact hg.starNoParent n hmem hc
  · intro n' hmem _
    rw [hn] at hmem
    exact ⟨n', hmem, rfl, rfl⟩

theorem tracked_map (s s' : EditorState) (hg : GoodState s) (f : NodeItem → NodeItem)
    (hid : ∀ n, (f n).id = n.id)
    (hcat : ∀ n, (f n).initial_category = n.initial_category)
    (hstar : ∀ n ∈ s.nodes, n.initial_category = BodyCat.star →
        nodeCategory (f n) = some BodyCat.star ∧ (f n).parent_star_id = none)
    (hn : s'.nodes = s.nodes.map f) (hnext : s'.nextNodeId = s.nextNodeId) :
    Tracked s s' := by
  refine ⟨⟨?_, ?_, ?_, ?_⟩, le_of_eq hnext.symm, ?_⟩
  · rw [hn, idsOf_map_of_id _ _ hid]
    exact hg.nodup
  · intro n hmem
    rw [hn] at hmem
    obtain ⟨m, hm, rfl⟩ := List.mem_map.mp hmem
    rw [hnext, hid m]
    exact hg.idsLt m hm
  · intro n hmem hc
    rw [hn] at hmem
    obtain ⟨m, hm, rfl⟩ := List.mem_map.mp hmem
    rw [hcat m] at hc
    exact (hstar m hm hc).1
  · intro n hmem hc
    rw [hn] at hmem
    obtain ⟨m, hm, rfl⟩ := List.mem_map.mp hmem
    rw [hcat m] at hc
    exact (hstar m hm hc).2
  · intro n' hmem _
    rw [hn] at hmem
    obtain ⟨m, hm, rfl⟩ := List.mem_map.mp hmem
    exact ⟨m, hm, (hid m).symm, hcat m⟩

theorem tracked_filter (s s' : EditorState) (hg : GoodState s) (p : NodeItem → Bool)
    (hn : s'.nodes = s.nodes.filter p) (hnext : s'.nextNodeId = s.nextNodeId) :
    Tracked s s' := by
  have hsub : ∀ n ∈ s.nodes.filter p, n ∈ s.nodes := fun n h => (List.mem_filter.mp h).1
  refine ⟨⟨?_, ?_, ?_, ?_⟩, le_of_eq hnext.symm, ?_⟩
  · rw [hn]
    exact List.Nodup.sublist (List.Sublist.map _ (List.filter_sublist _)) hg.nodup
  · intro n hmem
    rw [hn] at hmem
    rw [hnext]
    exact hg.idsLt n (hsub n hmem)
  · intro n hmem hc
    rw [hn] at hmem
    exact hg.starCat n (hsub n hmem) hc
  · intro n hmem hc
    rw [hn] at hmem
    exact hg.starNoParent n (hsub n hmem) hc
  · intro n' hmem _
    rw [hn] at hmem
    exact ⟨n', hsub n' hmem, rfl, rfl⟩

theorem tracked_append (s s' : EditorState) (hg : GoodState s) (new : NodeItem)
    (hn : s'.nodes = s.nodes ++ [new]) (hnext : s'.nextNodeId = s.nextNodeId + 1)
    (hnewid : new.id = s.nextNodeId)
    (hstar : new.initial_category = BodyCat.star →
        nodeCategory new = some BodyCat.star ∧ new.parent_star_id = none) :
    Tracked s s' := by
  refine ⟨⟨?_, ?_, ?_, ?_⟩, by rw [hnext]; exact Nat.le_succ _, ?_⟩
  · rw [hn]
    unfold idsOf
    rw [List.map_append]
    refine List.Nodup.append hg.nodup (by simp) ?_
    intro a ha hb
    simp only [List.map_cons, List.map_nil, List.mem_singleton] at hb
    subst hb
    obtain ⟨m, hm, hmid⟩ := List.mem_map.mp ha
    have hlt := hg.idsLt m hm
    rw [hmid, hnewid] at hlt
    exact lt_irrefl _ hlt
  · intro n hmem
    rw [hn] at hmem
    rcases List.mem_append.mp hmem with h | h
    · rw [hnext]
      exact Nat.lt_succ_of_lt (hg.idsLt n h)
    · rw [List.mem_singleton] at h
      subst h
      rw [hnext, hnewid]
      exact Nat.lt_succ_self _
  · intro n hmem hc
    rw [hn] at hmem
    rcases List.mem_append.mp hmem with h | h
    · exact hg.starCat n h hc
    · rw [List.mem_singleton] at h
      subst h
      exact (hstar hc).1
  · intro n hmem hc
    rw [hn] at hmem
    rcases List.mem_append.mp hmem with h | h
    · exact hg.starNoParent n h hc
    · rw [List.mem_singleton] at h
      subst h
      exact (hstar hc).2
  · intro n' hmem hlt
    rw [hn] at hmem
    rcases List.mem_append.mp hmem with h | h
    · exact ⟨n', h, rfl, rfl⟩
    · rw [List.mem_singleton] at h
      subst h
      rw [hnewid] at hlt
      exact absurd hlt (lt_irrefl _)

theorem addNode_cases (s : EditorState) (typeId : Option String) (px py : Int) :
    (addNode s typeId px py).1 = { s with nextNodeId := s.nextNodeId + 1 }
    ∨ ∃ new : NodeItem, new.id = s.nextNodeId
        ∧ (new.initial_category = BodyCat.star →
            nodeCategory new = some BodyCat.star ∧ new.parent_star_id = none)
        ∧ (addNode s typeId px py).1
          = { s with nodes := s.nodes ++ [new], nextNodeId := s.nextNodeId + 1 } := by
  simp only [addNode]
  by_cases hstar : categoryOf (typeId.getD DEFAULT_BODY_TYPE_ID) = some BodyCat.star
  · rw [if_pos hstar]
    split
    · left
      rfl
    · right
      refine ⟨_, rfl, ?_, rfl⟩
      exact fun _ => ⟨hstar, rfl⟩
  · rw [if_neg hstar]
    split
    · left
      rfl
    · split
      · left
        rfl
      · split
        · left
          rfl
        · right
          refine ⟨_, rfl, ?_, rfl⟩
          intro hc
          exfalso
          cases hcat : categoryOf (typeId.getD DEFAULT_BODY_TYPE_ID) with
          | none =>
            rw [hcat] at hc
            simp at hc
          | some c =>
            rw [hcat] at hc
            simp at hc
            rw [hc] at hcat
            exact hstar hcat

theorem step_tracked (s s' : EditorState) (h : Step s s') (hg : GoodState s) :
    Tracked s s' := by
  cases h with
  | ofAddNode typeId px py =>
    rcases addNode_cases s typeId px py with heq | ⟨new, hnewid, hstarp, heq⟩
    · rw [heq]
      exact tracked_keep s _ hg rfl (Nat.le_succ _)
    · rw [heq]
      exact tracked_append s _ hg new rfl rfl hnewid hstarp
  | ofMove nid px py =>
    refine tracked_map s _ hg _ (fun n => by repeat first | rfl | split)
      (fun n => by repeat first | rfl | split)
      (fun n hn hc => by
        have h1 := hg.starCat n hn hc
        have h2 := hg.starNoParent n hn hc
        unfold nodeCategory at h1 ⊢
        constructor <;> repeat first | exact h1 | exact h2 | rfl | split) rfl rfl
  | ofSetBodyType nid newTypeId =>
    cases hfind : findNode s.nodes nid with
    | none =>
      simp only [setBodyType, hfind]
      exact tracked_refl s hg
    | some sel =>
      obtain ⟨hselmem, hselid⟩ := findNode_mem s.nodes nid sel hfind
      cases hcat : categoryOf newTypeId with
      | none =>
        simp only [setBodyType, hfind, hcat]
        exact tracked_refl s hg
      | some newCat =>
        simp only [setBodyType, hfind, hcat]
        by_cases hb1 : sel.initial_category = BodyCat.star ∧ newCat ≠ BodyCat.star
        · rw [if_pos hb1]
          exact tracked_refl s hg
        · rw [if_neg hb1]
          by_cases hb2 : ¬(sel.initial_category = BodyCat.star) ∧ newCat = BodyCat.star
          · rw [if_pos hb2]
            exact tracked_refl s hg
          · rw [if_neg hb2]
            by_cases hsc : newCat = BodyCat.star
            · rw [if_pos hsc]
              split
              · exact tracked_refl s hg
              · refine tracked_map s _ hg _ (fun n => by repeat first | rfl | split)
                  (fun n => by repeat first | rfl | split)
                  (fun n hn hc => ?_) rfl rfl
                by_cases he : n.id = sel.id
                · constructor
                  · show nodeCategory (if n.id = sel.id then _ else n) = some BodyCat.star
                    rw [if_pos he]
                    show categoryOf newTypeId = some BodyCat.star
                    rw [hcat, hsc]
                  · rw [if_pos he]
                · constructor
                  · have h1 := hg.starCat n hn hc
                    unfold nodeCategory at h1 ⊢
                    rw [if_neg he]
                    exact h1
                  · have h2 := hg.starNoParent n hn hc
                    rw [if_neg he]
                    exact h2
            · rw [if_neg hsc]
              split
              · exact tracked_refl s hg
              · split
                · exact tracked_refl s hg
                · rename_i pid heq
                  split
                  · exact tracked_refl s hg
                  · refine tracked_map s _ hg _ (fun n => by repeat first | rfl | split)
                      (fun n => by repeat first | rfl | split)
                      (fun n hn hc => ?_) rfl rfl
                    by_cases he : n.id = sel.id
                    · exfalso
                      have hne : n = sel := node_eq_of_id s.nodes hg.nodup hn hselmem he
                      rw [hne] at hc
                      exact hb1 ⟨hc, hsc⟩
                    · constructor
                      · have h1 := hg.starCat n hn hc
                        unfold nodeCategory at h1 ⊢
                        rw [if_neg he]
                        exact h1
                      · have h2 := hg.starNoParent n hn hc
                        rw [if_neg he]
                        exact h2
  | ofSetParentStar nid target hsel =>
    cases hfind : findNode s.nodes nid with
    | none =>
      simp only [setParentStar, hfind]
      exact tracked_refl s hg
    | some sel =>
      have hselstar : nodeCategory sel ≠ some BodyCat.star := hsel sel hfind
      obtain ⟨hselmem, hselid⟩ := findNode_mem s.nodes nid sel hfind
      cases target with
      | none =>
        simp only [setParentStar, hfind]
        refine tracked_map s _ hg _ (fun n => by repeat first | rfl | split)
          (fun n => by repeat first | rfl | split)
          (fun n hn hc => by
            have h1 := hg.starCat n hn hc
            have h2 := hg.starNoParent n hn hc
            unfold nodeCategory at h1 ⊢
            constructor <;> repeat first | exact h1 | exact h2 | rfl | split) rfl rfl
      | some t =>
        simp only [setParentStar, hfind]
        split
        · exact tracked_refl s hg
        · refine tracked_map s _ hg _ (fun n => by repeat first | rfl | split)
            (fun n => by repeat first | rfl | split)
            (fun n hn hc => ?_) rfl rfl
          by_cases he : n.id = sel.id
          · exfalso
            have hne : n = sel := node_eq_of_id s.nodes hg.nodup hn hselmem he
            have hcatn := hg.starCat n hn hc
            rw [hne] at hcatn
            exact hselstar hcatn
          · constructor
            · have h1 := hg.starCat n hn hc
              unfold nodeCategory at h1 ⊢
              rw [if_neg he]
              exact h1
            · have h2 := hg.starNoParent n hn hc
              rw [if_neg he]
              exact h2
  | ofSetChance nid chance hsel =>
    refine tracked_map s _ hg _ (fun n => by repeat first | rfl | split)
      (fun n => by repeat first | rfl | split)
      (fun n hn hc => by
        have h1 := hg.starCat n hn hc
        have h2 := hg.starNoParent n hn hc
        unfold nodeCategory at h1 ⊢
        constructor <;> repeat first | exact h1 | exact h2 | rfl | split) rfl rfl
  | ofSetLootLevel nid lvl hsel =>
    refine tracked_map s _ hg _ (fun n => by repeat first | rfl | split)
      (fun n => by repeat first | rfl | split)
      (fun n hn hc => by
        have h1 := hg.starCat n hn hc
        have h2 := hg.starNoParent n hn hc
        unfold nodeCategory at h1 ⊢
        constructor <;> repeat first | exact h1 | exact h2 | rfl | split) rfl rfl
  | ofSetHasArtifact nid v =>
    refine tracked_map s _ hg _ (fun n => by repeat first | rfl | split)
      (fun n => by repeat first | rfl | split)
      (fun n hn hc => by
        have h1 := hg.starCat n hn hc
        have h2 := hg.starNoParent n hn hc
        unfold nodeCategory at h1 ⊢
        constructor <;> repeat first | exact h1 | exact h2 | rfl | split) rfl rfl
  | ofSetArtifactName nid v =>
    refine tracked_map s _ hg _ (fun n => by repeat first | rfl | split)
      (fun n => by repeat first | rfl | split)
      (fun n hn hc => by
        have h1 := hg.starCat n hn hc
        have h2 := hg.starNoParent n hn hc
        unfold nodeCategory at h1 ⊢
        constructor <;> repeat first | exact h1 | exact h2 | rfl | split) rfl rfl
  | ofSetOwnershipMode nid mode hsel =>
    cases hfind : findNode s.nodes nid with
    | none =>
      simp only [setOwnershipMode, hfind]
      exact tracked_refl s hg
    | some sel =>
      cases mode with
      | player =>
        simp only [setOwnershipMode, hfind]
        split
        · exact tracked_refl s hg
        · split
          · exact tracked_refl s hg
          · refine tracked_map s _ hg _ (fun n => by repeat first | rfl | split)
              (fun n => by repeat first | rfl | split)
              (fun n hn hc => by
                have h1 := hg.starCat n hn hc
                have h2 := hg.starNoParent n hn hc
                unfold nodeCategory at h1 ⊢
                constructor <;> repeat first | exact h1 | exact h2 | rfl | split) rfl rfl
      | unowned =>
        simp only [setOwnershipMode, hfind]
        refine tracked_map s _ hg _ (fun n => by repeat first | rfl | split)
          (fun n => by repeat first | rfl | split)
          (fun n hn hc => by
            have h1 := hg.starCat n hn hc
            have h2 := hg.starNoParent n hn hc
            unfold nodeCategory at h1 ⊢
            constructor <;> repeat first | exact h1 | exact h2 | rfl | split) rfl rfl
      | npc =>
        simp only [setOwnershipMode, hfind]
        refine tracked_map s _ hg _ (fun n => by repeat first | rfl | split)
          (fun n => by repeat first | rfl | split)
          (fun n hn hc => by
            have h1 := hg.starCat n hn hc
            have h2 := hg.starNoParent n hn hc
            unfold nodeCategory at h1 ⊢
            constructor <;> repeat first | exact h1 | exact h2 | rfl | split) rfl rfl
  | ofSetPlayerIndex nid raw =>
    cases hfind : findNode s.nodes nid with
    | none =>
      simp only [setPlayerIndex, hfind]
      exact tracked_refl s hg
    | some sel =>
      simp only [setPlayerIndex, hfind]
      split
      · exact tracked_refl s hg
      · split
        · exact tracked_refl s hg
        · refine tracked_map s _ hg _ (fun n => by repeat first | rfl | split)
            (fun n => by repeat first | rfl | split)
            (fun n hn hc => by
              have h1 := hg.starCat n hn hc
              have h2 := hg.starNoParent n hn hc
              unfold nodeCategory at h1 ⊢
              constructor <;> repeat first | exact h1 | exact h2 | rfl | split) rfl rfl
  | ofSetNpcType nid t =>
    refine tracked_map s _ hg _ (fun n => by repeat first | rfl | split)
      (fun n => by repeat first | rfl | split)
      (fun n hn hc => by
        have h1 := hg.starCat n hn hc
        have h2 := hg.starNoParent n hn hc
        unfold nodeCategory at h1 ⊢
        constructor <;> repeat first | exact h1 | exact h2 | rfl | split) rfl rfl
  | ofSetNpcName nid v =>
    refine tracked_map s _ hg _ (fun n => by repeat first | rfl | split)
      (fun n => by repeat first | rfl | split)
      (fun n hn hc => by
        have h1 := hg.starCat n hn hc
        have h2 := hg.starNoParent n hn hc
        unfold nodeCategory at h1 ⊢
        constructor <;> repeat first | exact h1 | exact h2 | rfl | split) rfl rfl
  | ofLink aId bId laneType =>
    simp only [linkNodes]
    by_cases hab : aId = bId
    · rw [if_pos hab]
      exact tracked_refl s hg
    · rw [if_neg hab]
      split
      · exact tracked_refl s hg
      · cases hfa : findNode s.nodes aId with
        | none =>
          simp only [hfa]
          exact tracked_refl s hg
        | some a =>
          cases hfb : findNode s.nodes bId with
          | none =>
            simp only [hfa, hfb]
            exact tracked_refl s hg
          | some b =>
            simp only [hfa, hfb]
            obtain ⟨hamem, haid⟩ := findNode_mem s.nodes aId a hfa
            obtain ⟨hbmem, hbid⟩ := findNode_mem s.nodes bId b hfb
            by_cases hps :
                (categoryOf a.filling_name = some BodyCat.planet ∧
                  categoryOf b.filling_name = some BodyCat.star) ∨
                (categoryOf a.filling_name = some BodyCat.star ∧
                  categoryOf b.filling_name = some BodyCat.planet)
            · rw [if_pos hps]
              repeat' split
              all_goals first
                | exact tracked_keep s _ hg rfl (le_refl _)
                | exact tracked_map s _ hg _ (fun n => by repeat first | rfl | split)
                    (fun n => by repeat first | rfl | split)
                    (fun n hn hc => by
                      have h1 := hg.starCat n hn hc
                      have h2 := hg.starNoParent n hn hc
                      unfold nodeCategory at h1 ⊢
                      constructor
                      · split
                        · next hcnd =>
                            exfalso
                            first
                            | (have hac : categoryOf a.filling_name = some BodyCat.planet := by
                                  assumption
                               have hne : n = a :=
                                 node_eq_of_id s.nodes hg.nodup hn hamem hcnd.1
                               rw [hne] at h1
                               rw [hac] at h1
                               simp at h1)
                            | (have hac : ¬(categoryOf a.filling_name = some BodyCat.planet) := by
                                  assumption
                               have hbp : categoryOf b.filling_name = some BodyCat.planet := by
                                 rcases hps with ⟨hx, _⟩ | ⟨_, hx⟩
                                 · exact absurd hx hac
                                 · exact hx
                               have hne : n = b :=
                                 node_eq_of_id s.nodes hg.nodup hn hbmem hcnd.1
                               rw [hne] at h1
                               rw [hbp] at h1
                               simp at h1)
                        · exact h1
                      · split
                        · next hcnd =>
                            exfalso
                            first
                            | (have hac : categoryOf a.filling_name = some BodyCat.planet := by
                                  assumption
                               have hne : n = a :=
                                 node_eq_of_id s.nodes hg.nodup hn hamem hcnd.1
                               rw [hne] at h1
                               rw [hac] at h1
                               simp at h1)
                            | (have hac : ¬(categoryOf a.filling_name = some BodyCat.planet) := by
                                  assumption
                               have hbp : categoryOf b.filling_name = some BodyCat.planet := by
                                 rcases hps with ⟨hx, _⟩ | ⟨_, hx⟩
                                 · exact absurd hx hac
                                 · exact hx
                               have hne : n = b :=
                                 node_eq_of_id s.nodes hg.nodup hn hbmem hcnd.1
                               rw [hne] at h1
                               rw [hbp] at h1
                               simp at h1)
                        · exact h2) rfl rfl
            · rw [if_neg hps]
              exact tracked_keep s _ hg rfl (le_refl _)
  | ofRemoveLane laneId =>
    simp only [removeLane]
    cases hrem : s.lanes.find? (fun l => l.id = laneId) with
    | none =>
      simp only [hrem]
      exact tracked_keep s _ hg rfl (le_refl _)
    | some rl =>
      simp only [hrem]
      repeat' split
      all_goals first
        | exact tracked_keep s _ hg rfl (le_refl _)
        | exact tracked_map s _ hg _ (fun n => by repeat first | rfl | split)
            (fun n => by repeat first | rfl | split)
            (fun n hn hc => by
              have h1 := hg.starCat n hn hc
              have h2 := hg.starNoParent n hn hc
              unfold nodeCategory at h1 ⊢
              constructor <;> repeat first | exact h1 | exact h2 | rfl | split) rfl rfl
  | ofRemoveLastLane =>
    exact tracked_keep s _ hg rfl (le_refl _)
  | ofRemoveSelected nid confirmOk =>
    cases hfind : findNode s.nodes nid with
    | none =>
      simp only [removeSelected, hfind]
      exact tracked_refl s hg
    | some sel =>
      simp only [removeSelected, hfind]
      split
      · split
        · exact tracked_refl s hg
        · split
          · exact tracked_refl s hg
          · exact tracked_filter s _ hg _ rfl rfl
      · split
        · exact tracked_refl s hg
        · exact tracked_filter s _ hg _ rfl rfl
  | ofReassignDelete source target =>
    cases target with
    | none =>
      simp only [reassignAndDeleteStar]
      exact tracked_refl s hg
    | some t =>
      simp only [reassignAndDeleteStar]
      split
      · exact tracked_refl s hg
      · split
        · exact tracked_refl s hg
        · have hmid := tracked_filter s
            { s with nodes := s.nodes.filter (fun n => n.id ≠ source) } hg
            (fun n => n.id ≠ source) rfl rfl
          refine tracked_trans s _ _ hmid ?_
          refine tracked_map _ _ hmid.1 _ (fun n => by repeat first | rfl | split)
            (fun n => by repeat first | rfl | split)
            (fun n hn hc => ?_) rfl rfl
          have h2 := hmid.1.starNoParent n hn hc
          by_cases hcnd : n.parent_star_id = some source
          · rw [h2] at hcnd
            simp at hcnd
          · constructor
            · have h1 := hmid.1.starCat n hn hc
              unfold nodeCategory at h1 ⊢
              rw [if_neg hcnd]
              exact h1
            · rw [if_neg hcnd]
              exact h2
  | ofSetParentSelector v =>
    exact tracked_keep s _ hg rfl (le_refl _)
  | ofSetPlayers p =>
    exact tracked_keep s _ hg rfl (le_refl _)

theorem steps_tracked (s s' : EditorState) (h : Steps s s') (hg : GoodState s) :
    Tracked s s' := by
  unfold Steps at h
  induction h with
  | refl => exact tracked_refl s hg
  | tail hab hbc ih => exact tracked_trans _ _ _ ih (step_tracked _ _ hbc ih.1)

/-- C6: across every sequence of in-session mutations from a well-formed
editor state, a node present before and after (same id) keeps its frozen
initial category, every initially-star node still has no parent star, and
the body-type setter returns the state unchanged on any star / non-star
boundary crossing in either direction. -/
theorem c6_initial_category (s s' : EditorState) :
    (GoodState s → Steps s s' →
      ((∀ n' ∈ s'.nodes, ∀ n ∈ s.nodes, n.id = n'.id →
          n'.initial_category = n.initial_category)
        ∧ ∀ n' ∈ s'.nodes, n'.initial_category = BodyCat.star →
            n'.parent_star_id = none))
    ∧ (∀ (nid : Nat) (newTypeId : String) (sel : NodeItem) (newCat : BodyCat),
        findNode s.nodes nid = some sel →
        categoryOf newTypeId = some newCat →
        ((sel.initial_category = BodyCat.star ∧ newCat ≠ BodyCat.star) ∨
          (¬(sel.initial_category = BodyCat.star) ∧ newCat = BodyCat.star)) →
        setBodyType s nid newTypeId = s) := by
  constructor
  · intro hg hsteps
    obtain ⟨hg', hle, htrack⟩ := steps_tracked s s' hsteps hg
    constructor
    · intro n' hn' n hn hid
      obtain ⟨m, hm, hmid, hmcat⟩ := htrack n' hn' (by rw [← hid]; exact hg.idsLt n hn)
      have hmn : m = n := node_eq_of_id s.nodes hg.nodup hm hn (hmid.trans hid.symm)
      rw [hmn] at hmcat
      exact hmcat
    · exact hg'.starNoParent
  · intro nid newTypeId sel newCat hfind hcat hb
    simp only [setBodyType, hfind, hcat]
    rcases hb with ⟨h1, h2⟩ | ⟨h1, h2⟩
    · rw [if_pos ⟨h1, h2⟩]
    · rw [if_neg (fun hh => h1 hh.1), if_pos ⟨h1, h2⟩]

/-- Witness for the C6 theorem: from the app's initial one-star state, a
concrete drag step preserves the star's frozen category, and changing the
star's body type to a planet type is rejected outright. -/
theorem c6_witness :
    (∀ n' ∈ (updateNodePosition initState 1 0 0).nodes, ∀ n ∈ initState.nodes,
        n.id = n'.id → n'.initial_category = n.initial_category)
    ∧ setBodyType initState 1 "planet_terran" = initState := by
  constructor
  · exact ((c6_initial_category initState (updateNodePosition initState 1 0 0)).1
      ⟨by decide, by decide, by decide, by decide⟩
      (Relation.ReflTransGen.single (Step.ofMove initState 1 0 0))).1
  · exact (c6_initial_category initState initState).2 1 "planet_terran" _ BodyCat.planet
      rfl rfl (Or.inl ⟨rfl, by decide⟩)

end Sins2
